import Mathlib

/-!
Button control daemon (`main.c`): embedding and properties.

The C program watches two GPIO input lines (`MainButton` = pin 27,
`LedButton` = pin 22) and drives two output lines (`MainPower` = pin 20,
`LedIndicator` = pin 21) through the sysfs GPIO files.

Embedding conventions.

* `int` and `long` values are `Int`.  The only arithmetic is `now - ticks[i]`
  on millisecond timestamps; `ticks[i]` is either `0` or an earlier clock
  reading, so with non-negative clock readings the subtraction cannot leave
  the range of `long`.
* The sysfs files are an explicit environment (`Gpio`): what `open`, `read`
  and `fopen` return for the value file of each pin.
* Code that can call `exit` returns a `Run`: the state reached, the events
  emitted, and the exit code when `exit` was called.
* `Event` records the observable actions: entry into `handle_button`,
  entry into `set_output` (where the program prints `Writing value ...`),
  and the `Can't write to ...` diagnostic of `write_to_file`.
-/

namespace AnetGpio

/-! ## Constants -/

def LOW : Int := 0
def HIGH : Int := 1
def MAX_PINS : Nat := 20
def BUFFER_SIZE : Int := 512
def BOUNCE_MSEC : Int := 100
def LONG_PRESS : Int := 4000

def PIN_IN_MAIN : Int := 27
def PIN_IN_LED : Int := 22
def PIN_OUT_MAIN : Int := 20
def PIN_OUT_LED : Int := 21

def input_pins : List Int := [PIN_IN_MAIN, PIN_IN_LED]
def output_pins : List Int := [PIN_OUT_MAIN, PIN_OUT_LED]
def n_input_pins : Nat := input_pins.length
def n_output_pins : Nat := output_pins.length

/-- The bit `POLLPRI` of `<poll.h>` on Linux (`0x002`). -/
def POLLPRI : Nat := 2

/-- Character code of the digit `'0'`. -/
def CHAR_0 : Int := 48

/-- Character code of the digit `'1'`. -/
def CHAR_1 : Int := 49

/-! ## Environment and state -/

/-- The sysfs value files, indexed by pin number.
`rdOpen p` is what `open(".../gpio<p>/value", O_RDONLY)` returns,
`rdLen p` what the following `read(fd, buffer, BUFFER_SIZE)` returns,
`rdByte p` is `buffer[0]` after that read,
`wrOpen p` tells whether `fopen(".../gpio<p>/value", "w")` succeeds, and
`wrStore p` whether the text then written reaches the line (the results of
`fprintf` and `fclose` are not inspected by the program). -/
structure Gpio where
  rdOpen : Int → Int
  rdLen : Int → Int
  rdByte : Int → Int
  wrOpen : Int → Bool
  wrStore : Int → Bool

/-- Observable actions of the program. -/
inductive Event where
  | handle_button (pin : Int) (msec : Int)
  | set_output (pin : Int) (value : Int)
  | cantWrite (pin : Int)
  deriving DecidableEq, Repr

/-- The variables of `main` that persist across loop iterations, and the
environment. -/
structure State where
  ticks : Nat → Int
  gpio : Gpio

/-- Result of running a piece of code: the state reached, the events emitted
in order, and `some code` when `exit(code)` was called (the state is then the
one at the call). -/
structure Run where
  state : State
  events : List Event
  exitCode : Option Int

/-- Code that does nothing. -/
def Run.ret (s : State) : Run := ⟨s, [], none⟩

/-- Code that emits one event. -/
def Run.emit (e : Event) (s : State) : Run := ⟨s, [e], none⟩

/-- Sequential composition: nothing runs after `exit`. -/
def Run.andThen (r : Run) (f : State → Run) : Run :=
  match r.exitCode with
  | some _ => r
  | none => ⟨(f r.state).state, r.events ++ (f r.state).events, (f r.state).exitCode⟩

/-- Effect on the environment of a digit reaching the value file of an output
line: later reads of that file return the digit followed by a newline. -/
def Gpio.store (g : Gpio) (pin : Int) (ch : Int) : Gpio :=
  { g with
    rdLen := fun p => if p = pin then 2 else g.rdLen p
    rdByte := fun p => if p = pin then ch else g.rdByte p }

/-! ## The functions of `main.c` -/

/-- The function `write_to_file`, on the value file of `pin` and with a
one-character text: on a failed `fopen` it prints the diagnostic and calls
`exit(-1)`. -/
def write_to_file (pin : Int) (ch : Int) (s : State) : Run :=
  if s.gpio.wrOpen pin = true then
    Run.ret (if s.gpio.wrStore pin = true then { s with gpio := s.gpio.store pin ch } else s)
  else
    ⟨s, [Event.cantWrite pin], some (-1)⟩

/-- The function `set_output`: it prints `Writing value ...` and writes the
digit to the value file of `pin`. -/
def set_output (pin : Int) (value : Int) (s : State) : Run :=
  (Run.emit (Event.set_output pin value) s).andThen
    (write_to_file pin (if value = LOW then CHAR_0 else CHAR_1))

/-- The function `get_pin_state`: `buffer[0] - '0'` when the file opens and
the read returns 2, otherwise -1. -/
def get_pin_state (g : Gpio) (pin : Int) : Int :=
  if g.rdOpen pin > 0 then
    if g.rdLen pin = 2 then g.rdByte pin - CHAR_0 else -1
  else -1

/-- The function `handle_button`: it reads both outputs, then switches on the
button pin and on the levels read. -/
def handle_button (pin : Int) (msec : Int) (s : State) : Run :=
  (Run.emit (Event.handle_button pin msec) s).andThen fun s =>
    let main_value := get_pin_state s.gpio PIN_OUT_MAIN
    let led_value := get_pin_state s.gpio PIN_OUT_LED
    if pin = PIN_IN_MAIN then
      if main_value = LOW then
        if msec ≥ LONG_PRESS then set_output PIN_OUT_MAIN HIGH s else Run.ret s
      else if main_value = HIGH then set_output PIN_OUT_MAIN LOW s
      else Run.ret s
    else if pin = PIN_IN_LED then
      if LOW = main_value then
        if led_value = LOW then set_output PIN_OUT_LED HIGH s
        else if led_value = HIGH then set_output PIN_OUT_LED LOW s
        else Run.ret s
      else Run.ret s
    else Run.ret s

/-- What one loop iteration receives for input line `i` in the edge path:
`fdset[i].revents`, the result of `read(fdset[i].fd, buffer, BUFFER_SIZE)`,
`buffer[0]` after it, and the value of `current_timestamp()`. -/
structure LineIn where
  revents : Nat
  nread : Int
  byte0 : Int
  now : Int

/-- What one loop iteration receives: the value returned by `poll`, the
per-line data of the edge path, and the clock reading of the timeout path. -/
structure Iter where
  pollRet : Int
  line : Nat → LineIn
  now : Int

/-- Assignment `ticks[i] = v`. -/
def setTick (i : Nat) (v : Int) (s : State) : State :=
  { s with ticks := fun j => if j = i then v else s.ticks j }

/-- Body of the `for` loop of the edge path, for line `i`. -/
def edge_line (i : Nat) (x : LineIn) (s : State) : Run :=
  if x.revents &&& POLLPRI ≠ 0 then
    if x.nread = 2 then
      let value := x.byte0 - CHAR_0
      if LOW = value then Run.ret (setTick i x.now s)
      else if HIGH = value then
        if s.ticks i ≠ 0 then
          let delay := x.now - s.ticks i
          (if delay ≥ BOUNCE_MSEC then handle_button (input_pins.getD i 0) delay s
            else Run.ret s).andThen
            fun s1 => Run.ret (setTick i 0 s1)
        else Run.ret s
      else Run.ret s
    else Run.ret s
  else Run.ret s

/-- Body of the `for` loop of the timeout path, for line `i`. -/
def timeout_line (now : Int) (i : Nat) (s : State) : Run :=
  let delay := now - s.ticks i
  if s.ticks i > 0 ∧ delay ≥ LONG_PRESS then
    (handle_button (input_pins.getD i 0) delay s).andThen
      fun s1 => Run.ret (setTick i 0 s1)
  else Run.ret s

/-- A `for` loop over the given line indices. -/
def forLines (body : Nat → State → Run) : List Nat → State → Run
  | [], s => Run.ret s
  | i :: rest, s => (body i s).andThen (forLines body rest)

/-- One iteration of the `while` loop of `main`. -/
def loop_body (x : Iter) (s : State) : Run :=
  if x.pollRet ≠ 0 then
    forLines (fun i => edge_line i (x.line i)) (List.range n_input_pins) s
  else
    forLines (timeout_line x.now) (List.range n_input_pins) s

/-- A finite run of the `while` loop of `main`, one `Iter` per iteration. -/
def main_loop : List Iter → State → Run
  | [], s => Run.ret s
  | x :: rest, s => (loop_body x s).andThen (main_loop rest)

/-! ## Reading the event list -/

/-- The `(pin, value)` arguments of the `set_output` calls, in order. -/
def writes (evs : List Event) : List (Int × Int) :=
  evs.filterMap fun e =>
    match e with
    | Event.set_output p v => some (p, v)
    | _ => none

/-- The durations passed to the `handle_button` calls made for `pin`. -/
def callsFor (pin : Int) (evs : List Event) : List Int :=
  evs.filterMap fun e =>
    match e with
    | Event.handle_button p m => if p = pin then some m else none
    | _ => none

/-- Press classes of the specification. -/
def isShort (msec : Int) : Prop := BOUNCE_MSEC ≤ msec ∧ msec < LONG_PRESS

/-- Long press. -/
def isLong (msec : Int) : Prop := LONG_PRESS ≤ msec

instance (msec : Int) : Decidable (isShort msec) := by
  unfold isShort; infer_instance

instance (msec : Int) : Decidable (isLong msec) := by
  unfold isLong; infer_instance

/-- The output value files can be opened for writing. -/
def outputsOpenable (g : Gpio) : Prop :=
  g.wrOpen PIN_OUT_MAIN = true ∧ g.wrOpen PIN_OUT_LED = true

/-- A `Low` reading of line `i` in the edge path of iteration `x`. -/
def lowReading (x : Iter) (i : Nat) : Prop :=
  x.pollRet ≠ 0 ∧ (x.line i).revents &&& POLLPRI ≠ 0 ∧ (x.line i).nread = 2 ∧
    (x.line i).byte0 - CHAR_0 = LOW

/-- A `High` reading of line `i` in the edge path of iteration `x` (a rising
edge is read). -/
def highReading (x : Iter) (i : Nat) : Prop :=
  x.pollRet ≠ 0 ∧ (x.line i).revents &&& POLLPRI ≠ 0 ∧ (x.line i).nread = 2 ∧
    (x.line i).byte0 - CHAR_0 = HIGH

/-- A piece of code calls `handle_button` for `pin` at most once, not at all
when `ticks[i]` is 0 on entry (it then leaves it 0), and leaves `ticks[i]` at 0
when it made the call and returned. -/
def Once (pin : Int) (i : Nat) (f : State → Run) : Prop :=
  ∀ s, (callsFor pin (f s).events).length ≤ 1 ∧
    (s.ticks i = 0 → callsFor pin (f s).events = [] ∧ (f s).state.ticks i = 0) ∧
    (callsFor pin (f s).events ≠ [] → (f s).exitCode = none → (f s).state.ticks i = 0)

/-- Neither output value file can be opened for writing. -/
def outputsShut (g : Gpio) : Prop :=
  g.wrOpen PIN_OUT_MAIN = false ∧ g.wrOpen PIN_OUT_LED = false

/-- With the output value files shut, a piece of code either makes no
`set_output` call, returns and leaves the environment alone, or prints the
`Can't write to ...` diagnostic and exits with code -1. -/
def StopsOnWrite (f : State → Run) : Prop :=
  ∀ s, outputsShut s.gpio →
    (writes (f s).events = [] ∧ (f s).exitCode = none ∧ (f s).state.gpio = s.gpio) ∨
    ((f s).exitCode = some (-1) ∧ ∃ p, Event.cantWrite p ∈ (f s).events)

instance (g : Gpio) : Decidable (outputsShut g) := by
  unfold outputsShut; infer_instance

instance (g : Gpio) : Decidable (outputsOpenable g) := by
  unfold outputsOpenable; infer_instance

instance (x : Iter) (i : Nat) : Decidable (lowReading x i) := by
  unfold lowReading; infer_instance

instance (x : Iter) (i : Nat) : Decidable (highReading x i) := by
  unfold highReading; infer_instance

/-! ## Concrete environments used in the examples -/

/-- An environment in which every value file reads as `main`/`led` and every
write succeeds. -/
def gpioOf (main led : Int) : Gpio :=
  { rdOpen := fun _ => 3
    rdLen := fun _ => 2
    rdByte := fun p => if p = PIN_OUT_MAIN then CHAR_0 + main else CHAR_0 + led
    wrOpen := fun _ => true
    wrStore := fun _ => true }

/-- The state after the `memset` of `ticks`, over `gpioOf main led`. -/
def stateOf (main led : Int) : State := ⟨fun _ => 0, gpioOf main led⟩

/-- A state with `ticks[0] = t0` and `ticks[1] = t1`, over `gpioOf main led`. -/
def pressedState (main led t0 t1 : Int) : State :=
  ⟨fun j => if j = 0 then t0 else if j = 1 then t1 else 0, gpioOf main led⟩

/-- The state `pressedState main led t0 t1` with both output value files shut. -/
def shutState (main led t0 t1 : Int) : State :=
  ⟨(pressedState main led t0 t1).ticks, { gpioOf main led with wrOpen := fun _ => false }⟩

/-- A signaled line whose value file reads `1` and a newline at time `now`. -/
def highAt (now : Int) : LineIn := ⟨POLLPRI, 2, CHAR_1, now⟩

/-- A signaled line whose value file reads `0` and a newline at time `now`. -/
def lowAt (now : Int) : LineIn := ⟨POLLPRI, 2, CHAR_0, now⟩

/-- A line that was not signaled. -/
def quiet : LineIn := ⟨0, 0, 0, 0⟩

/-- An iteration in which `poll` timed out, at time `now`. -/
def timeoutAt (now : Int) : Iter := ⟨0, fun _ => quiet, now⟩

/-- An iteration in which `poll` returned 1, with the given data for lines 0
and 1. -/
def edgeAt (l0 l1 : LineIn) : Iter := ⟨1, fun j => if j = 0 then l0 else l1, 0⟩

/-! ## Basic facts about `Run` -/

theorem andThen_emit (e : Event) (s : State) (f : State → Run) :
    (Run.emit e s).andThen f = ⟨(f s).state, e :: (f s).events, (f s).exitCode⟩ := by
  simp [Run.emit, Run.andThen]

theorem andThen_ret (s : State) (f : State → Run) : (Run.ret s).andThen f = f s := by
  simp [Run.ret, Run.andThen]

theorem get_pin_state_store_same (g : Gpio) (pin ch : Int)
    (h : 0 < g.rdOpen pin) : get_pin_state (g.store pin ch) pin = ch - CHAR_0 := by
  simp [get_pin_state, Gpio.store, h]

theorem get_pin_state_store_other (g : Gpio) (pin q ch : Int) (h : q ≠ pin) :
    get_pin_state (g.store pin ch) q = get_pin_state g q := by
  simp [get_pin_state, Gpio.store, h]

theorem rdOpen_pos_of_state (g : Gpio) (pin : Int) (h : get_pin_state g pin ≠ -1) :
    0 < g.rdOpen pin := by
  unfold get_pin_state at h
  by_contra hc
  simp [hc] at h

/-! ## `set_output` -/

theorem set_output_writes (p v : Int) (s : State) :
    writes (set_output p v s).events = [(p, v)] := by
  by_cases hw : s.gpio.wrOpen p = true <;>
    simp [set_output, andThen_emit, write_to_file, hw, Run.ret, writes]

theorem set_output_calls (q p v : Int) (s : State) :
    callsFor q (set_output p v s).events = [] := by
  by_cases hw : s.gpio.wrOpen p = true <;>
    simp [set_output, andThen_emit, write_to_file, hw, Run.ret, callsFor]

theorem set_output_ticks (p v : Int) (s : State) :
    (set_output p v s).state.ticks = s.ticks := by
  by_cases hw : s.gpio.wrOpen p = true <;> by_cases hs : s.gpio.wrStore p = true <;>
    simp [set_output, andThen_emit, write_to_file, hw, hs, Run.ret]

theorem set_output_wrOpen (p v : Int) (s : State) :
    (set_output p v s).state.gpio.wrOpen = s.gpio.wrOpen := by
  by_cases hw : s.gpio.wrOpen p = true <;> by_cases hs : s.gpio.wrStore p = true <;>
    simp [set_output, andThen_emit, write_to_file, hw, hs, Run.ret, Gpio.store]

theorem set_output_open (p v : Int) (s : State) (hw : s.gpio.wrOpen p = true) :
    (set_output p v s).exitCode = none := by
  simp [set_output, andThen_emit, write_to_file, hw, Run.ret]

theorem set_output_closed (p v : Int) (s : State) (hw : s.gpio.wrOpen p ≠ true) :
    set_output p v s = ⟨s, [Event.set_output p v, Event.cantWrite p], some (-1)⟩ := by
  simp [set_output, andThen_emit, write_to_file, hw]

theorem set_output_stored (p v : Int) (s : State) (hw : s.gpio.wrOpen p = true)
    (hs : s.gpio.wrStore p = true) :
    (set_output p v s).state.gpio = s.gpio.store p (if v = LOW then CHAR_0 else CHAR_1) := by
  simp [set_output, andThen_emit, write_to_file, hw, hs, Run.ret]

theorem set_output_lost (p v : Int) (s : State) (hw : s.gpio.wrOpen p = true)
    (hs : s.gpio.wrStore p ≠ true) :
    set_output p v s = ⟨s, [Event.set_output p v], none⟩ := by
  simp [set_output, andThen_emit, write_to_file, hw, hs, Run.ret]

/-- After a write that reached the line, the written level is read back from
the pin and every other pin reads as before. -/
theorem set_output_readback (p v : Int) (s : State) (hv : v = LOW ∨ v = HIGH)
    (hw : s.gpio.wrOpen p = true) (hs : s.gpio.wrStore p = true)
    (hr : get_pin_state s.gpio p ≠ -1) :
    get_pin_state (set_output p v s).state.gpio p = v ∧
    ∀ q, q ≠ p → get_pin_state (set_output p v s).state.gpio q = get_pin_state s.gpio q := by
  rw [set_output_stored p v s hw hs]
  refine ⟨?_, fun q hq => get_pin_state_store_other _ _ _ _ hq⟩
  rw [get_pin_state_store_same _ _ _ (rdOpen_pos_of_state _ _ hr)]
  rcases hv with h | h <;> subst h <;> decide

/-! ## The branches of `handle_button` -/

theorem hb_main_low_long (s : State) (msec : Int)
    (hm : get_pin_state s.gpio PIN_OUT_MAIN = LOW) (hl : LONG_PRESS ≤ msec) :
    handle_button PIN_IN_MAIN msec s =
      (Run.emit (Event.handle_button PIN_IN_MAIN msec) s).andThen
        (set_output PIN_OUT_MAIN HIGH) := by
  simp [handle_button, andThen_emit, hm, hl]

theorem hb_main_low_short (s : State) (msec : Int)
    (hm : get_pin_state s.gpio PIN_OUT_MAIN = LOW) (hl : msec < LONG_PRESS) :
    handle_button PIN_IN_MAIN msec s = ⟨s, [Event.handle_button PIN_IN_MAIN msec], none⟩ := by
  simp [handle_button, andThen_emit, hm, not_le.mpr hl, Run.ret]

theorem hb_main_high (s : State) (msec : Int)
    (hm : get_pin_state s.gpio PIN_OUT_MAIN = HIGH) :
    handle_button PIN_IN_MAIN msec s =
      (Run.emit (Event.handle_button PIN_IN_MAIN msec) s).andThen
        (set_output PIN_OUT_MAIN LOW) := by
  have hHL : ¬ (HIGH = LOW) := by decide
  simp [handle_button, andThen_emit, hm, hHL]

theorem hb_main_other (s : State) (msec : Int)
    (h0 : get_pin_state s.gpio PIN_OUT_MAIN ≠ LOW)
    (h1 : get_pin_state s.gpio PIN_OUT_MAIN ≠ HIGH) :
    handle_button PIN_IN_MAIN msec s = ⟨s, [Event.handle_button PIN_IN_MAIN msec], none⟩ := by
  simp [handle_button, andThen_emit, h0, h1, Run.ret]

theorem hb_led_toggle (s : State) (msec v : Int)
    (hm : get_pin_state s.gpio PIN_OUT_MAIN = LOW)
    (hv : (get_pin_state s.gpio PIN_OUT_LED = LOW ∧ v = HIGH) ∨
      (get_pin_state s.gpio PIN_OUT_LED = HIGH ∧ v = LOW)) :
    handle_button PIN_IN_LED msec s =
      (Run.emit (Event.handle_button PIN_IN_LED msec) s).andThen
        (set_output PIN_OUT_LED v) := by
  have hp : ¬ (PIN_IN_LED = PIN_IN_MAIN) := by decide
  have hHL : ¬ (HIGH = LOW) := by decide
  rcases hv with ⟨hl, rfl⟩ | ⟨hl, rfl⟩ <;>
    simp [handle_button, andThen_emit, hm, hl, hp, hHL]

theorem hb_led_idle (s : State) (msec : Int)
    (h : get_pin_state s.gpio PIN_OUT_MAIN ≠ LOW ∨
      (get_pin_state s.gpio PIN_OUT_LED ≠ LOW ∧ get_pin_state s.gpio PIN_OUT_LED ≠ HIGH)) :
    handle_button PIN_IN_LED msec s = ⟨s, [Event.handle_button PIN_IN_LED msec], none⟩ := by
  have hp : ¬ (PIN_IN_LED = PIN_IN_MAIN) := by decide
  rcases h with h | ⟨h0, h1⟩
  · have h' : ¬ (LOW = get_pin_state s.gpio PIN_OUT_MAIN) := fun e => h e.symm
    simp [handle_button, andThen_emit, h', hp, Run.ret]
  · by_cases hm : get_pin_state s.gpio PIN_OUT_MAIN = LOW
    · simp [handle_button, andThen_emit, hm, h0, h1, hp, Run.ret]
    · have h' : ¬ (LOW = get_pin_state s.gpio PIN_OUT_MAIN) := fun e => hm e.symm
      simp [handle_button, andThen_emit, h', hp, Run.ret]

theorem hb_other_pin (s : State) (pin msec : Int) (h0 : pin ≠ PIN_IN_MAIN)
    (h1 : pin ≠ PIN_IN_LED) :
    handle_button pin msec s = ⟨s, [Event.handle_button pin msec], none⟩ := by
  simp [handle_button, andThen_emit, h0, h1, Run.ret]

/-- What `handle_button` yields in a branch that calls `set_output`. -/
theorem hb_then_set_output (s : State) (pin msec p v : Int) :
    let r := (Run.emit (Event.handle_button pin msec) s).andThen (set_output p v)
    writes r.events = [(p, v)] ∧ r.state = (set_output p v s).state ∧
      r.exitCode = (set_output p v s).exitCode ∧
      ∀ q, callsFor q r.events = if pin = q then [msec] else [] := by
  intro r
  have hw := set_output_writes p v s
  have hc := fun q => set_output_calls q p v s
  refine ⟨?_, ?_, ?_, ?_⟩
  · simpa [r, andThen_emit, writes] using hw
  · simp [r, andThen_emit]
  · simp [r, andThen_emit]
  · intro q
    have := hc q
    by_cases hq : pin = q <;> simp_all [r, andThen_emit, callsFor]

/-- What a single `set_output` call made by `handle_button` does: it is the
only write, and when it reaches the line the pin then reads as written and the
other pins read as before. -/
theorem hb_write_effect (s : State) (pin msec p v : Int) (hv : v = LOW ∨ v = HIGH)
    (hr : get_pin_state s.gpio p ≠ -1)
    (he : handle_button pin msec s =
      (Run.emit (Event.handle_button pin msec) s).andThen (set_output p v)) :
    writes (handle_button pin msec s).events = [(p, v)] ∧
    (s.gpio.wrOpen p = true → s.gpio.wrStore p = true →
      (handle_button pin msec s).exitCode = none ∧
      get_pin_state (handle_button pin msec s).state.gpio p = v ∧
      ∀ q, q ≠ p →
        get_pin_state (handle_button pin msec s).state.gpio q = get_pin_state s.gpio q) := by
  obtain ⟨h1, h2, h3, _⟩ := hb_then_set_output s pin msec p v
  rw [he]
  refine ⟨h1, fun hw hs => ⟨?_, ?_⟩⟩
  · rw [h3]; exact set_output_open p v s hw
  · rw [h2]; exact set_output_readback p v s hv hw hs hr

/-! ## Frame properties of `handle_button` -/

theorem andThen_none (r : Run) (f : State → Run) (h : r.exitCode = none) :
    r.andThen f = ⟨(f r.state).state, r.events ++ (f r.state).events, (f r.state).exitCode⟩ := by
  simp [Run.andThen, h]

theorem andThen_some (r : Run) (f : State → Run) (h : r.exitCode ≠ none) :
    r.andThen f = r := by
  cases hc : r.exitCode with
  | none => exact absurd hc h
  | some c => simp [Run.andThen, hc]

theorem andThen_ret_right (r : Run) : r.andThen Run.ret = r := by
  cases hc : r.exitCode with
  | some c => exact andThen_some r _ (by rw [hc]; simp)
  | none =>
    rw [andThen_none r _ hc]
    cases r with
    | mk st evs ec =>
      simp only at hc
      subst hc
      simp [Run.ret]

theorem callsFor_append (q : Int) (a b : List Event) :
    callsFor q (a ++ b) = callsFor q a ++ callsFor q b := by
  simp [callsFor, List.filterMap_append]

theorem writes_append (a b : List Event) : writes (a ++ b) = writes a ++ writes b := by
  simp [writes, List.filterMap_append]

/-- Every branch of `handle_button` either does nothing or makes one
`set_output` call on an output pin. -/
theorem hb_shape (pin msec : Int) (s : State) :
    handle_button pin msec s = ⟨s, [Event.handle_button pin msec], none⟩ ∨
    ∃ p v, (p = PIN_OUT_MAIN ∨ p = PIN_OUT_LED) ∧
      handle_button pin msec s =
        (Run.emit (Event.handle_button pin msec) s).andThen (set_output p v) := by
  simp only [handle_button, andThen_emit]
  split_ifs
  all_goals first
    | (left; rfl)
    | (right; exact ⟨_, _, Or.inl rfl, rfl⟩)
    | (right; exact ⟨_, _, Or.inr rfl, rfl⟩)

theorem hb_calls (pin msec : Int) (s : State) (q : Int) :
    callsFor q (handle_button pin msec s).events = if pin = q then [msec] else [] := by
  rcases hb_shape pin msec s with h | ⟨p, v, -, h⟩
  · rw [h]
    by_cases hq : pin = q <;> simp [callsFor, hq]
  · rw [h]
    exact (hb_then_set_output s pin msec p v).2.2.2 q

theorem hb_ticks (pin msec : Int) (s : State) :
    (handle_button pin msec s).state.ticks = s.ticks := by
  rcases hb_shape pin msec s with h | ⟨p, v, -, h⟩
  · rw [h]
  · rw [h, (hb_then_set_output s pin msec p v).2.1, set_output_ticks]

theorem hb_wrOpen (pin msec : Int) (s : State) :
    (handle_button pin msec s).state.gpio.wrOpen = s.gpio.wrOpen := by
  rcases hb_shape pin msec s with h | ⟨p, v, -, h⟩
  · rw [h]
  · rw [h, (hb_then_set_output s pin msec p v).2.1, set_output_wrOpen]

theorem hb_returns (pin msec : Int) (s : State) (hw : outputsOpenable s.gpio) :
    (handle_button pin msec s).exitCode = none := by
  rcases hb_shape pin msec s with h | ⟨p, v, hp, h⟩
  · rw [h]
  · rw [h, (hb_then_set_output s pin msec p v).2.2.1]
    rcases hp with rfl | rfl
    · exact set_output_open _ _ _ hw.1
    · exact set_output_open _ _ _ hw.2

/-- A call of `handle_button` followed by `ticks[i] = 0`. -/
theorem press_summary (i : Nat) (pin msec : Int) (s : State) :
    let r := (handle_button pin msec s).andThen fun s1 => Run.ret (setTick i 0 s1)
    r.events = (handle_button pin msec s).events ∧
    r.exitCode = (handle_button pin msec s).exitCode ∧
    (∀ j, j ≠ i → r.state.ticks j = s.ticks j) ∧
    (r.exitCode = none → r.state.ticks i = 0) ∧
    (r.exitCode ≠ none → r.state.ticks i = s.ticks i) ∧
    r.state.gpio.wrOpen = s.gpio.wrOpen := by
  intro r
  have ht := hb_ticks pin msec s
  have hw := hb_wrOpen pin msec s
  cases hc : (handle_button pin msec s).exitCode with
  | none =>
    have hr : r = ⟨setTick i 0 (handle_button pin msec s).state,
        (handle_button pin msec s).events ++ [], none⟩ := by
      simp only [r]
      rw [andThen_none _ _ hc]
      rfl
    rw [hr]
    refine ⟨by simp, rfl, ?_, ?_, ?_, ?_⟩
    · intro j hj
      simp [setTick, hj, ht]
    · intro _
      simp [setTick]
    · intro h
      exact absurd rfl h
    · simpa [setTick] using hw
  | some c =>
    have hr : r = handle_button pin msec s := by
      simp only [r]
      exact andThen_some _ _ (by rw [hc]; simp)
    rw [hr]
    refine ⟨rfl, hc, ?_, ?_, ?_, hw⟩
    · intro j _
      rw [ht]
    · intro h
      rw [hc] at h
      exact absurd h (by simp)
    · intro _
      rw [ht]

/-! ## The decision table of `handle_button` -/

/-- C1 (as amended): a Short press of MainButton makes no output write when
MainPower reads Low; when MainPower reads High it calls
`set_output(PIN_OUT_MAIN, LOW)` and writes nothing else, and if that write
reaches the line MainPower then reads Low and the other pins read as before. -/
theorem mainButton_short (s : State) (msec : Int) (h : isShort msec) :
    (get_pin_state s.gpio PIN_OUT_MAIN = LOW →
      writes (handle_button PIN_IN_MAIN msec s).events = [] ∧
      (handle_button PIN_IN_MAIN msec s).state = s ∧
      (handle_button PIN_IN_MAIN msec s).exitCode = none) ∧
    (get_pin_state s.gpio PIN_OUT_MAIN = HIGH →
      writes (handle_button PIN_IN_MAIN msec s).events = [(PIN_OUT_MAIN, LOW)] ∧
      (s.gpio.wrOpen PIN_OUT_MAIN = true → s.gpio.wrStore PIN_OUT_MAIN = true →
        (handle_button PIN_IN_MAIN msec s).exitCode = none ∧
        get_pin_state (handle_button PIN_IN_MAIN msec s).state.gpio PIN_OUT_MAIN = LOW ∧
        ∀ q, q ≠ PIN_OUT_MAIN →
          get_pin_state (handle_button PIN_IN_MAIN msec s).state.gpio q =
            get_pin_state s.gpio q)) := by
  constructor
  · intro hm
    rw [hb_main_low_short s msec hm h.2]
    exact ⟨rfl, rfl, rfl⟩
  · intro hm
    exact hb_write_effect s PIN_IN_MAIN msec PIN_OUT_MAIN LOW (Or.inl rfl)
      (by rw [hm]; decide) (hb_main_high s msec hm)

/-- Witness for `mainButton_short`: a 200 ms press with MainPower reading
High. -/
theorem mainButton_short_witness :
    isShort 200 ∧ get_pin_state (stateOf 1 1).gpio PIN_OUT_MAIN = HIGH ∧
      writes (handle_button PIN_IN_MAIN 200 (stateOf 1 1)).events = [(PIN_OUT_MAIN, LOW)] :=
  ⟨⟨by decide, by decide⟩, by decide,
    ((mainButton_short (stateOf 1 1) 200 ⟨by decide, by decide⟩).2 (by decide)).1⟩

/-- C1 as stated fails: a 200 ms press of MainButton with MainPower reading
Low does not write High to MainPower (it writes nothing), and with MainPower
reading High it does write (Low to MainPower). -/
theorem mainButton_short_counterexample :
    isShort 200 ∧
    get_pin_state (stateOf 0 1).gpio PIN_OUT_MAIN = LOW ∧
    writes (handle_button PIN_IN_MAIN 200 (stateOf 0 1)).events ≠ [(PIN_OUT_MAIN, HIGH)] ∧
    get_pin_state (stateOf 1 1).gpio PIN_OUT_MAIN = HIGH ∧
    writes (handle_button PIN_IN_MAIN 200 (stateOf 1 1)).events ≠ [] :=
  ⟨⟨by decide, by decide⟩, by decide, by decide, by decide, by decide⟩

/-- C2 (as amended): a Long press of MainButton calls
`set_output(PIN_OUT_MAIN, HIGH)` when MainPower reads Low and
`set_output(PIN_OUT_MAIN, LOW)` when MainPower reads High; in both cases it
is the only write, and if it reaches the line MainPower then reads as written
and the other pins read as before. -/
theorem mainButton_long (s : State) (msec : Int) (h : isLong msec) :
    (get_pin_state s.gpio PIN_OUT_MAIN = LOW →
      writes (handle_button PIN_IN_MAIN msec s).events = [(PIN_OUT_MAIN, HIGH)] ∧
      (s.gpio.wrOpen PIN_OUT_MAIN = true → s.gpio.wrStore PIN_OUT_MAIN = true →
        (handle_button PIN_IN_MAIN msec s).exitCode = none ∧
        get_pin_state (handle_button PIN_IN_MAIN msec s).state.gpio PIN_OUT_MAIN = HIGH ∧
        ∀ q, q ≠ PIN_OUT_MAIN →
          get_pin_state (handle_button PIN_IN_MAIN msec s).state.gpio q =
            get_pin_state s.gpio q)) ∧
    (get_pin_state s.gpio PIN_OUT_MAIN = HIGH →
      writes (handle_button PIN_IN_MAIN msec s).events = [(PIN_OUT_MAIN, LOW)] ∧
      (s.gpio.wrOpen PIN_OUT_MAIN = true → s.gpio.wrStore PIN_OUT_MAIN = true →
        (handle_button PIN_IN_MAIN msec s).exitCode = none ∧
        get_pin_state (handle_button PIN_IN_MAIN msec s).state.gpio PIN_OUT_MAIN = LOW ∧
        ∀ q, q ≠ PIN_OUT_MAIN →
          get_pin_state (handle_button PIN_IN_MAIN msec s).state.gpio q =
            get_pin_state s.gpio q)) := by
  constructor
  · intro hm
    exact hb_write_effect s PIN_IN_MAIN msec PIN_OUT_MAIN HIGH (Or.inr rfl)
      (by rw [hm]; decide) (hb_main_low_long s msec hm h)
  · intro hm
    exact hb_write_effect s PIN_IN_MAIN msec PIN_OUT_MAIN LOW (Or.inl rfl)
      (by rw [hm]; decide) (hb_main_high s msec hm)

/-- Witness for `mainButton_long`: a 4000 ms press with MainPower reading
Low. -/
theorem mainButton_long_witness :
    isLong 4000 ∧ get_pin_state (stateOf 0 1).gpio PIN_OUT_MAIN = LOW ∧
      writes (handle_button PIN_IN_MAIN 4000 (stateOf 0 1)).events = [(PIN_OUT_MAIN, HIGH)] :=
  ⟨by decide, by decide, ((mainButton_long (stateOf 0 1) 4000 (by decide)).1 (by decide)).1⟩

/-- C2 as stated fails: a 4000 ms press of MainButton with MainPower reading
Low does make an output write. -/
theorem mainButton_long_counterexample :
    isLong 4000 ∧
    get_pin_state (stateOf 0 1).gpio PIN_OUT_MAIN = LOW ∧
    writes (handle_button PIN_IN_MAIN 4000 (stateOf 0 1)).events ≠ [] :=
  ⟨by decide, by decide, by decide⟩

/-- The LedButton branch of `handle_button`, which does not look at the
duration. -/
theorem ledButton_any (s : State) (msec : Int) :
    (get_pin_state s.gpio PIN_OUT_MAIN = LOW →
      (get_pin_state s.gpio PIN_OUT_LED = LOW →
        writes (handle_button PIN_IN_LED msec s).events = [(PIN_OUT_LED, HIGH)]) ∧
      (get_pin_state s.gpio PIN_OUT_LED = HIGH →
        writes (handle_button PIN_IN_LED msec s).events = [(PIN_OUT_LED, LOW)]) ∧
      (∀ w ∈ writes (handle_button PIN_IN_LED msec s).events, w.1 ≠ PIN_OUT_MAIN)) ∧
    (get_pin_state s.gpio PIN_OUT_MAIN = HIGH →
      writes (handle_button PIN_IN_LED msec s).events = [] ∧
      (handle_button PIN_IN_LED msec s).state = s ∧
      (handle_button PIN_IN_LED msec s).exitCode = none) := by
  constructor
  · intro hm
    have hL : get_pin_state s.gpio PIN_OUT_LED = LOW →
        writes (handle_button PIN_IN_LED msec s).events = [(PIN_OUT_LED, HIGH)] := by
      intro hl
      rw [hb_led_toggle s msec HIGH hm (Or.inl ⟨hl, rfl⟩)]
      exact (hb_then_set_output s PIN_IN_LED msec PIN_OUT_LED HIGH).1
    have hH : get_pin_state s.gpio PIN_OUT_LED = HIGH →
        writes (handle_button PIN_IN_LED msec s).events = [(PIN_OUT_LED, LOW)] := by
      intro hl
      rw [hb_led_toggle s msec LOW hm (Or.inr ⟨hl, rfl⟩)]
      exact (hb_then_set_output s PIN_IN_LED msec PIN_OUT_LED LOW).1
    refine ⟨hL, hH, ?_⟩
    intro w hw
    by_cases h0 : get_pin_state s.gpio PIN_OUT_LED = LOW
    · rw [hL h0] at hw
      simp at hw
      rw [hw]; decide
    · by_cases h1 : get_pin_state s.gpio PIN_OUT_LED = HIGH
      · rw [hH h1] at hw
        simp at hw
        rw [hw]; decide
      · rw [hb_led_idle s msec (Or.inr ⟨h0, h1⟩)] at hw
        simp [writes] at hw
  · intro hm
    rw [hb_led_idle s msec (Or.inl (by rw [hm]; decide))]
    exact ⟨rfl, rfl, rfl⟩

/-- Two presses of LedButton in a row, with MainPower reading Low,
LedIndicator reading High and writes to LedIndicator reaching the line:
LedIndicator reads Low after the first and High after the second. -/
theorem ledButton_twice (s : State) (d1 d2 : Int)
    (hm : get_pin_state s.gpio PIN_OUT_MAIN = LOW)
    (hl : get_pin_state s.gpio PIN_OUT_LED = HIGH)
    (hw : s.gpio.wrOpen PIN_OUT_LED = true) (hs : s.gpio.wrStore PIN_OUT_LED = true) :
    (handle_button PIN_IN_LED d1 s).exitCode = none ∧
    get_pin_state (handle_button PIN_IN_LED d1 s).state.gpio PIN_OUT_LED = LOW ∧
    (handle_button PIN_IN_LED d2 (handle_button PIN_IN_LED d1 s).state).exitCode = none ∧
    get_pin_state
      (handle_button PIN_IN_LED d2 (handle_button PIN_IN_LED d1 s).state).state.gpio
      PIN_OUT_LED = HIGH := by
  have e1 := hb_led_toggle s d1 LOW hm (Or.inr ⟨hl, rfl⟩)
  obtain ⟨a1, a2, a3⟩ := (hb_write_effect s PIN_IN_LED d1 PIN_OUT_LED LOW (Or.inl rfl)
    (by rw [hl]; decide) e1).2 hw hs
  have hm1 := (a3 PIN_OUT_MAIN (by decide)).trans hm
  have hw1 : (handle_button PIN_IN_LED d1 s).state.gpio.wrOpen PIN_OUT_LED = true := by
    rw [e1, (hb_then_set_output s PIN_IN_LED d1 PIN_OUT_LED LOW).2.1, set_output_wrOpen]
    exact hw
  have hs1 : (handle_button PIN_IN_LED d1 s).state.gpio.wrStore PIN_OUT_LED = true := by
    rw [e1, (hb_then_set_output s PIN_IN_LED d1 PIN_OUT_LED LOW).2.1,
      set_output_stored _ _ _ hw hs]
    exact hs
  have e2 := hb_led_toggle (handle_button PIN_IN_LED d1 s).state d2 HIGH hm1
    (Or.inl ⟨a2, rfl⟩)
  obtain ⟨b1, b2, -⟩ := (hb_write_effect _ PIN_IN_LED d2 PIN_OUT_LED HIGH (Or.inr rfl)
    (by rw [a2]; decide) e2).2 hw1 hs1
  exact ⟨a1, a2, b1, b2⟩

/-- C3: a Short press of LedButton with MainPower reading Low calls
`set_output` on LedIndicator with the opposite of the level read from it and
never writes MainPower; with MainPower reading High it makes no output write.
Two Short presses in a row, starting with MainPower Low and LedIndicator High
and with the writes reaching the line, leave LedIndicator Low and then High. -/
theorem ledButton_short (s : State) (msec : Int) (h : isShort msec) :
    (get_pin_state s.gpio PIN_OUT_MAIN = LOW →
      (get_pin_state s.gpio PIN_OUT_LED = LOW →
        writes (handle_button PIN_IN_LED msec s).events = [(PIN_OUT_LED, HIGH)]) ∧
      (get_pin_state s.gpio PIN_OUT_LED = HIGH →
        writes (handle_button PIN_IN_LED msec s).events = [(PIN_OUT_LED, LOW)]) ∧
      (∀ w ∈ writes (handle_button PIN_IN_LED msec s).events, w.1 ≠ PIN_OUT_MAIN)) ∧
    (get_pin_state s.gpio PIN_OUT_MAIN = HIGH →
      writes (handle_button PIN_IN_LED msec s).events = [] ∧
      (handle_button PIN_IN_LED msec s).state = s ∧
      (handle_button PIN_IN_LED msec s).exitCode = none) ∧
    (∀ msec2, isShort msec2 →
      get_pin_state s.gpio PIN_OUT_MAIN = LOW → get_pin_state s.gpio PIN_OUT_LED = HIGH →
      s.gpio.wrOpen PIN_OUT_LED = true → s.gpio.wrStore PIN_OUT_LED = true →
      (handle_button PIN_IN_LED msec s).exitCode = none ∧
      get_pin_state (handle_button PIN_IN_LED msec s).state.gpio PIN_OUT_LED = LOW ∧
      (handle_button PIN_IN_LED msec2 (handle_button PIN_IN_LED msec s).state).exitCode
        = none ∧
      get_pin_state
        (handle_button PIN_IN_LED msec2 (handle_button PIN_IN_LED msec s).state).state.gpio
        PIN_OUT_LED = HIGH) := by
  have _ := h
  exact ⟨(ledButton_any s msec).1, (ledButton_any s msec).2,
    fun msec2 _ hm hl hw hs => ledButton_twice s msec msec2 hm hl hw hs⟩

/-- Witness for `ledButton_short`: two 200 ms presses starting from MainPower
Low and LedIndicator High. -/
theorem ledButton_short_witness :
    isShort 200 ∧ get_pin_state (stateOf 0 1).gpio PIN_OUT_MAIN = LOW ∧
    get_pin_state (stateOf 0 1).gpio PIN_OUT_LED = HIGH ∧
    writes (handle_button PIN_IN_LED 200 (stateOf 0 1)).events = [(PIN_OUT_LED, LOW)] ∧
    get_pin_state (handle_button PIN_IN_LED 200 (stateOf 0 1)).state.gpio PIN_OUT_LED = LOW ∧
    get_pin_state
      (handle_button PIN_IN_LED 200 (handle_button PIN_IN_LED 200 (stateOf 0 1)).state).state.gpio
      PIN_OUT_LED = HIGH :=
  ⟨⟨by decide, by decide⟩, by decide, by decide,
    ((ledButton_short (stateOf 0 1) 200 ⟨by decide, by decide⟩).1 (by decide)).2.1 (by decide),
    ((ledButton_short (stateOf 0 1) 200 ⟨by decide, by decide⟩).2.2 200
      ⟨by decide, by decide⟩ (by decide) (by decide) rfl rfl).2.1,
    ((ledButton_short (stateOf 0 1) 200 ⟨by decide, by decide⟩).2.2 200
      ⟨by decide, by decide⟩ (by decide) (by decide) rfl rfl).2.2.2⟩

/-- C4 (as amended): a Long press of LedButton is treated like a Short one.
With MainPower reading Low it calls `set_output` on LedIndicator with the
opposite of the level read from it and never writes MainPower; with MainPower
reading High it makes no output write. -/
theorem ledButton_long (s : State) (msec : Int) (h : isLong msec) :
    (get_pin_state s.gpio PIN_OUT_MAIN = LOW →
      (get_pin_state s.gpio PIN_OUT_LED = LOW →
        writes (handle_button PIN_IN_LED msec s).events = [(PIN_OUT_LED, HIGH)]) ∧
      (get_pin_state s.gpio PIN_OUT_LED = HIGH →
        writes (handle_button PIN_IN_LED msec s).events = [(PIN_OUT_LED, LOW)]) ∧
      (∀ w ∈ writes (handle_button PIN_IN_LED msec s).events, w.1 ≠ PIN_OUT_MAIN)) ∧
    (get_pin_state s.gpio PIN_OUT_MAIN = HIGH →
      writes (handle_button PIN_IN_LED msec s).events = [] ∧
      (handle_button PIN_IN_LED msec s).state = s ∧
      (handle_button PIN_IN_LED msec s).exitCode = none) := by
  have _ := h
  exact ledButton_any s msec

/-- Witness for `ledButton_long`: a 5000 ms press with MainPower reading Low
and LedIndicator reading High. -/
theorem ledButton_long_witness :
    isLong 5000 ∧ get_pin_state (stateOf 0 1).gpio PIN_OUT_MAIN = LOW ∧
    get_pin_state (stateOf 0 1).gpio PIN_OUT_LED = HIGH ∧
    writes (handle_button PIN_IN_LED 5000 (stateOf 0 1)).events = [(PIN_OUT_LED, LOW)] :=
  ⟨by decide, by decide, by decide,
    ((ledButton_long (stateOf 0 1) 5000 (by decide)).1 (by decide)).2.1 (by decide)⟩

/-- C4 as stated fails: a 4000 ms press of LedButton with MainPower and
LedIndicator both reading Low writes High to LedIndicator. -/
theorem ledButton_long_counterexample :
    isLong 4000 ∧
    get_pin_state (stateOf 0 0).gpio PIN_OUT_MAIN = LOW ∧
    get_pin_state (stateOf 0 0).gpio PIN_OUT_LED = LOW ∧
    writes (handle_button PIN_IN_LED 4000 (stateOf 0 0)).events = [(PIN_OUT_LED, HIGH)] ∧
    writes (handle_button PIN_IN_LED 4000 (stateOf 0 0)).events ≠ [] :=
  ⟨by decide, by decide, by decide, by decide, by decide⟩

/-! ## The edge path, line by line -/

theorem edge_line_low (i : Nat) (x : LineIn) (s : State) (hp : x.revents &&& POLLPRI ≠ 0)
    (hn : x.nread = 2) (hv : x.byte0 - CHAR_0 = LOW) :
    edge_line i x s = Run.ret (setTick i x.now s) := by
  simp [edge_line, hp, hn, hv]

theorem edge_line_high (i : Nat) (x : LineIn) (s : State) (hp : x.revents &&& POLLPRI ≠ 0)
    (hn : x.nread = 2) (hv : x.byte0 - CHAR_0 = HIGH) (ht : s.ticks i ≠ 0) :
    edge_line i x s =
      (if x.now - s.ticks i ≥ BOUNCE_MSEC then
          handle_button (input_pins.getD i 0) (x.now - s.ticks i) s
        else Run.ret s).andThen fun s1 => Run.ret (setTick i 0 s1) := by
  have hLH : ¬ (LOW = HIGH) := by decide
  simp [edge_line, hp, hn, hv, ht, hLH]

theorem edge_line_skip (i : Nat) (x : LineIn) (s : State)
    (h : x.revents &&& POLLPRI = 0 ∨ x.nread ≠ 2 ∨
      (x.byte0 - CHAR_0 ≠ LOW ∧ x.byte0 - CHAR_0 ≠ HIGH) ∨
      (x.byte0 - CHAR_0 = HIGH ∧ s.ticks i = 0)) :
    edge_line i x s = Run.ret s := by
  have hLH : ¬ (LOW = HIGH) := by decide
  rcases h with h | h | ⟨h0, h1⟩ | ⟨h1, h0⟩
  · simp [edge_line, h]
  · simp [edge_line, h]
  · have h0' : ¬ (LOW = x.byte0 - CHAR_0) := fun e => h0 e.symm
    have h1' : ¬ (HIGH = x.byte0 - CHAR_0) := fun e => h1 e.symm
    simp [edge_line, h0', h1']
  · simp [edge_line, h1, h0, hLH]

theorem mem_callsFor (p m : Int) (evs : List Event) :
    Event.handle_button p m ∈ evs ↔ m ∈ callsFor p evs := by
  induction evs with
  | nil => simp [callsFor]
  | cons e rest ih =>
    have hc : callsFor p (e :: rest) = callsFor p [e] ++ callsFor p rest :=
      callsFor_append p [e] rest
    rw [hc, List.mem_append, List.mem_cons, ih]
    cases e with
    | handle_button q n =>
      by_cases hq : q = p
      · subst hq
        simp [callsFor]
      · have : p ≠ q := fun e => hq e.symm
        simp [callsFor, hq, this]
    | set_output q v => simp [callsFor]
    | cantWrite q => simp [callsFor]

/-- The events of a debounced press on line `i`. -/
theorem edge_press_calls (i : Nat) (d : Int) (s : State) (q : Int) :
    callsFor q
      ((if d ≥ BOUNCE_MSEC then handle_button (input_pins.getD i 0) d s
        else Run.ret s).andThen fun s1 => Run.ret (setTick i 0 s1)).events =
      if BOUNCE_MSEC ≤ d ∧ input_pins.getD i 0 = q then [d] else [] := by
  by_cases hd : BOUNCE_MSEC ≤ d
  · have hd' : d ≥ BOUNCE_MSEC := hd
    rw [if_pos hd', (press_summary i (input_pins.getD i 0) d s).1, hb_calls]
    by_cases hq : input_pins.getD i 0 = q <;> simp [hq, hd]
  · have hd' : ¬ (d ≥ BOUNCE_MSEC) := hd
    rw [if_neg hd', andThen_ret]
    simp [hd, Run.ret, callsFor]

/-- C5: in the edge path, for an input line with a pending timer and a High
reading, `handle_button` is called (once, with the duration `now - ticks[i]`)
exactly when that duration is at least `BOUNCE_MSEC`; below it nothing is
emitted and only the timer changes.  The timer is cleared whenever the call
returns, which it does when the output value files can be opened. -/
theorem edge_high_pending (i : Nat) (x : LineIn) (s : State) (hi : i < n_input_pins)
    (hp : x.revents &&& POLLPRI ≠ 0) (hn : x.nread = 2) (hv : x.byte0 - CHAR_0 = HIGH)
    (ht : s.ticks i ≠ 0) :
    (callsFor (input_pins.getD i 0) (edge_line i x s).events ≠ [] ↔
      BOUNCE_MSEC ≤ x.now - s.ticks i) ∧
    (BOUNCE_MSEC ≤ x.now - s.ticks i →
      callsFor (input_pins.getD i 0) (edge_line i x s).events = [x.now - s.ticks i]) ∧
    (x.now - s.ticks i < BOUNCE_MSEC →
      edge_line i x s = ⟨setTick i 0 s, [], none⟩) ∧
    ((edge_line i x s).exitCode = none → (edge_line i x s).state.ticks i = 0) ∧
    (outputsOpenable s.gpio → (edge_line i x s).exitCode = none) := by
  have _ := hi
  have he := edge_line_high i x s hp hn hv ht
  have hc := edge_press_calls i (x.now - s.ticks i) s (input_pins.getD i 0)
  rw [← he] at hc
  by_cases hd : BOUNCE_MSEC ≤ x.now - s.ticks i
  · have hd' : x.now - s.ticks i ≥ BOUNCE_MSEC := hd
    have hs := press_summary i (input_pins.getD i 0) (x.now - s.ticks i) s
    rw [if_pos hd'] at he
    rw [← he] at hs
    refine ⟨?_, ?_, ?_, hs.2.2.2.1, ?_⟩
    · rw [hc]; simp [hd]
    · intro _; rw [hc]; simp [hd]
    · intro hlt; exact absurd hd (not_le.mpr hlt)
    · intro hw; rw [hs.2.1]; exact hb_returns _ _ _ hw
  · have hd' : ¬ (x.now - s.ticks i ≥ BOUNCE_MSEC) := hd
    rw [if_neg hd', andThen_ret] at he
    refine ⟨?_, ?_, ?_, ?_, ?_⟩
    · rw [hc]; simp [hd]
    · intro h; exact absurd h hd
    · intro _; rw [he]; rfl
    · intro _; rw [he]; simp [Run.ret, setTick]
    · intro _; rw [he]; rfl

/-- Witness for `edge_high_pending`: MainButton released exactly 100 ms after
the falling edge recorded at time 1000. -/
theorem edge_high_pending_witness :
    0 < n_input_pins ∧ (highAt 1100).revents &&& POLLPRI ≠ 0 ∧ (highAt 1100).nread = 2 ∧
    (highAt 1100).byte0 - CHAR_0 = HIGH ∧ (pressedState 0 1 1000 0).ticks 0 ≠ 0 ∧
    callsFor PIN_IN_MAIN (edge_line 0 (highAt 1100) (pressedState 0 1 1000 0)).events = [100] ∧
    (edge_line 0 (highAt 1100) (pressedState 0 1 1000 0)).state.ticks 0 = 0 :=
  ⟨by decide, by decide, by decide, by decide, by decide,
    (edge_high_pending 0 (highAt 1100) (pressedState 0 1 1000 0) (by decide) (by decide)
      (by decide) (by decide) (by decide)).2.1 (by decide),
    (edge_high_pending 0 (highAt 1100) (pressedState 0 1 1000 0) (by decide) (by decide)
      (by decide) (by decide) (by decide)).2.2.2.1 (by decide)⟩

/-- A `handle_button` call made while processing line `i` in the edge path is
measured from a recorded falling edge. -/
theorem edge_line_call (i : Nat) (y : LineIn) (s : State) (p m : Int)
    (h : Event.handle_button p m ∈ (edge_line i y s).events) :
    s.ticks i ≠ 0 ∧ p = input_pins.getD i 0 ∧ m = y.now - s.ticks i ∧ BOUNCE_MSEC ≤ m := by
  by_cases hp : y.revents &&& POLLPRI = 0
  · rw [edge_line_skip i y s (Or.inl hp)] at h
    simp [Run.ret] at h
  by_cases hn : y.nread = 2
  swap
  · rw [edge_line_skip i y s (Or.inr (Or.inl hn))] at h
    simp [Run.ret] at h
  by_cases h0 : y.byte0 - CHAR_0 = LOW
  · rw [edge_line_low i y s hp hn h0] at h
    simp [Run.ret] at h
  by_cases h1 : y.byte0 - CHAR_0 = HIGH
  swap
  · rw [edge_line_skip i y s (Or.inr (Or.inr (Or.inl ⟨h0, h1⟩)))] at h
    simp [Run.ret] at h
  by_cases ht : s.ticks i = 0
  · rw [edge_line_skip i y s (Or.inr (Or.inr (Or.inr ⟨h1, ht⟩)))] at h
    simp [Run.ret] at h
  rw [edge_line_high i y s hp hn h1 ht, mem_callsFor, edge_press_calls] at h
  by_cases hc : BOUNCE_MSEC ≤ y.now - s.ticks i ∧ input_pins.getD i 0 = p
  · rw [if_pos hc] at h
    simp at h
    subst h
    exact ⟨ht, hc.2.symm, rfl, hc.1⟩
  · rw [if_neg hc] at h
    simp at h

/-! ## The timeout path, line by line -/

theorem timeout_line_fire (now : Int) (i : Nat) (s : State)
    (h : s.ticks i > 0 ∧ now - s.ticks i ≥ LONG_PRESS) :
    timeout_line now i s =
      (handle_button (input_pins.getD i 0) (now - s.ticks i) s).andThen
        fun s1 => Run.ret (setTick i 0 s1) := by
  simp only [timeout_line]
  rw [if_pos h]

theorem timeout_line_idle (now : Int) (i : Nat) (s : State)
    (h : ¬ (s.ticks i > 0 ∧ now - s.ticks i ≥ LONG_PRESS)) :
    timeout_line now i s = Run.ret s := by
  simp only [timeout_line]
  rw [if_neg h]

/-- A `handle_button` call made while processing line `i` in the timeout path
is measured from a recorded falling edge. -/
theorem timeout_line_call (now : Int) (i : Nat) (s : State) (p m : Int)
    (h : Event.handle_button p m ∈ (timeout_line now i s).events) :
    0 < s.ticks i ∧ p = input_pins.getD i 0 ∧ m = now - s.ticks i ∧ LONG_PRESS ≤ m := by
  by_cases hc : s.ticks i > 0 ∧ now - s.ticks i ≥ LONG_PRESS
  · rw [timeout_line_fire now i s hc, (press_summary i _ _ s).1, mem_callsFor, hb_calls] at h
    by_cases hq : input_pins.getD i 0 = p
    · rw [if_pos hq] at h
      simp at h
      subst h
      exact ⟨hc.1, hq.symm, rfl, hc.2⟩
    · rw [if_neg hq] at h
      simp at h
  · rw [timeout_line_idle now i s hc] at h
    simp [Run.ret] at h

/-- C10: in the edge path, a High reading on an input line whose timer is
not pending emits nothing and leaves the whole state, every timer included,
unchanged.  With the timer not pending, no reading of the line and no timeout
leads to a `handle_button` call, so no duration is ever measured from an unset
timestamp. -/
theorem edge_high_spurious (i : Nat) (x : LineIn) (s : State) (hi : i < n_input_pins)
    (hp : x.revents &&& POLLPRI ≠ 0) (hn : x.nread = 2) (hv : x.byte0 - CHAR_0 = HIGH)
    (ht : s.ticks i = 0) :
    edge_line i x s = ⟨s, [], none⟩ ∧
    (∀ (y : LineIn) (p m : Int), Event.handle_button p m ∉ (edge_line i y s).events) ∧
    (∀ (now p m : Int), Event.handle_button p m ∉ (timeout_line now i s).events) := by
  have _ := hi
  have _ := hp
  have _ := hn
  refine ⟨?_, ?_, ?_⟩
  · rw [edge_line_skip i x s (Or.inr (Or.inr (Or.inr ⟨hv, ht⟩)))]
    rfl
  · intro y p m h
    exact (edge_line_call i y s p m h).1 ht
  · intro now p m h
    have := (timeout_line_call now i s p m h).1
    rw [ht] at this
    exact absurd this (by decide)

/-- Witness for `edge_high_spurious`: a rising edge on LedButton with no
falling edge recorded. -/
theorem edge_high_spurious_witness :
    1 < n_input_pins ∧ (highAt 1200).revents &&& POLLPRI ≠ 0 ∧ (highAt 1200).nread = 2 ∧
    (highAt 1200).byte0 - CHAR_0 = HIGH ∧ (pressedState 0 1 1000 0).ticks 1 = 0 ∧
    (edge_line 1 (highAt 1200) (pressedState 0 1 1000 0)).events = [] ∧
    (edge_line 1 (highAt 1200) (pressedState 0 1 1000 0)).state.ticks 0 = 1000 :=
  ⟨by decide, by decide, by decide, by decide, by decide,
    congrArg Run.events (edge_high_spurious 1 (highAt 1200) (pressedState 0 1 1000 0)
      (by decide) (by decide) (by decide) (by decide) (by decide)).1,
    congrArg (fun r => r.state.ticks 0) (edge_high_spurious 1 (highAt 1200)
      (pressedState 0 1 1000 0) (by decide) (by decide) (by decide) (by decide)
      (by decide)).1⟩

/-- C9: a failed or malformed read is no observation.  In the edge path, a
read that does not return 2, or whose first byte is neither `'0'` nor `'1'`,
emits nothing and changes no timer.  `get_pin_state` returns -1 when the
`open` fails or the `read` does not return 2; when it returns -1 for
MainPower `handle_button` writes nothing whichever the button, and when it
returns -1 for LedIndicator a LedButton press writes nothing. -/
theorem failed_read_ignored :
    (∀ (i : Nat) (x : LineIn) (s : State),
      x.nread ≠ 2 ∨ (x.byte0 ≠ CHAR_0 ∧ x.byte0 ≠ CHAR_1) →
      edge_line i x s = ⟨s, [], none⟩) ∧
    (∀ (g : Gpio) (p : Int), g.rdOpen p ≤ 0 ∨ g.rdLen p ≠ 2 → get_pin_state g p = -1) ∧
    (∀ (pin msec : Int) (s : State), get_pin_state s.gpio PIN_OUT_MAIN = -1 →
      writes (handle_button pin msec s).events = [] ∧
      (handle_button pin msec s).state = s ∧
      (handle_button pin msec s).exitCode = none) ∧
    (∀ (msec : Int) (s : State), get_pin_state s.gpio PIN_OUT_LED = -1 →
      writes (handle_button PIN_IN_LED msec s).events = [] ∧
      (handle_button PIN_IN_LED msec s).state = s ∧
      (handle_button PIN_IN_LED msec s).exitCode = none) := by
  refine ⟨?_, ?_, ?_, ?_⟩
  · intro i x s h
    rcases h with h | ⟨h0, h1⟩
    · rw [edge_line_skip i x s (Or.inr (Or.inl h))]; rfl
    · have e0 : x.byte0 - CHAR_0 ≠ LOW := by
        intro e; apply h0; simp only [LOW] at e; omega
      have e1 : x.byte0 - CHAR_0 ≠ HIGH := by
        intro e; apply h1; simp only [HIGH, CHAR_0] at e; simp only [CHAR_1]; omega
      rw [edge_line_skip i x s (Or.inr (Or.inr (Or.inl ⟨e0, e1⟩)))]; rfl
  · intro g p h
    rcases h with h | h
    · simp [get_pin_state, not_lt.mpr h]
    · simp [get_pin_state, h]
  · intro pin msec s hm
    have h0 : get_pin_state s.gpio PIN_OUT_MAIN ≠ LOW := by rw [hm]; decide
    have h1 : get_pin_state s.gpio PIN_OUT_MAIN ≠ HIGH := by rw [hm]; decide
    by_cases hp : pin = PIN_IN_MAIN
    · subst hp
      rw [hb_main_other s msec h0 h1]
      exact ⟨rfl, rfl, rfl⟩
    · by_cases hq : pin = PIN_IN_LED
      · subst hq
        rw [hb_led_idle s msec (Or.inl h0)]
        exact ⟨rfl, rfl, rfl⟩
      · rw [hb_other_pin s pin msec hp hq]
        exact ⟨rfl, rfl, rfl⟩
  · intro msec s hl
    have h0 : get_pin_state s.gpio PIN_OUT_LED ≠ LOW := by rw [hl]; decide
    have h1 : get_pin_state s.gpio PIN_OUT_LED ≠ HIGH := by rw [hl]; decide
    rw [hb_led_idle s msec (Or.inr ⟨h0, h1⟩)]
    exact ⟨rfl, rfl, rfl⟩

/-! ## At most one call per press -/

theorem setTick_same (i : Nat) (v : Int) (s : State) : (setTick i v s).ticks i = v := by
  simp [setTick]

theorem setTick_other (i j : Nat) (v : Int) (s : State) (h : j ≠ i) :
    (setTick j v s).ticks i = s.ticks i := by
  have h' : ¬ (i = j) := fun e => h e.symm
  simp [setTick, h']

theorem once_ret (pin : Int) (i : Nat) : Once pin i Run.ret := by
  intro s
  simp [Run.ret, callsFor]

theorem once_andThen (pin : Int) (i : Nat) (f g : State → Run) (hf : Once pin i f)
    (hg : Once pin i g) : Once pin i (fun s => (f s).andThen g) := by
  intro s
  obtain ⟨f1, f2, f3⟩ := hf s
  cases hc : (f s).exitCode with
  | some c =>
    have hr : (f s).andThen g = f s := andThen_some _ _ (by rw [hc]; simp)
    simp only [hr]
    exact ⟨f1, f2, f3⟩
  | none =>
    obtain ⟨g1, g2, g3⟩ := hg (f s).state
    have hr := andThen_none (f s) g hc
    simp only [hr, callsFor_append]
    by_cases ha : callsFor pin (f s).events = []
    · rw [ha]
      refine ⟨by simpa using g1, ?_, ?_⟩
      · intro h0
        have := g2 (f2 h0).2
        simpa using this
      · intro hne hx
        exact g3 (by simpa using hne) hx
    · have hz := f3 ha hc
      have hb := g2 hz
      rw [hb.1]
      refine ⟨by simpa using f1, ?_, ?_⟩
      · intro h0
        exact absurd (f2 h0).1 ha
      · intro _ _
        exact hb.2

theorem once_forLines (pin : Int) (i : Nat) (body : Nat → State → Run) (ls : List Nat)
    (h : ∀ j ∈ ls, Once pin i (body j)) : Once pin i (forLines body ls) := by
  induction ls with
  | nil => exact once_ret pin i
  | cons j rest ih =>
    have h1 := h j (List.mem_cons_self j rest)
    have h2 := ih fun k hk => h k (List.mem_cons_of_mem j hk)
    exact once_andThen pin i (body j) (forLines body rest) h1 h2

/-- A press handler for line `j` (a `handle_button` call followed by
`ticks[j] = 0`), seen from line `i`. -/
theorem once_press (i j : Nat) (hi : i < n_input_pins) (hj : j < n_input_pins) (d : Int)
    (s : State) (hpend : j = i → s.ticks i ≠ 0) :
    let r := (handle_button (input_pins.getD j 0) d s).andThen
      fun s1 => Run.ret (setTick j 0 s1)
    (callsFor (input_pins.getD i 0) r.events).length ≤ 1 ∧
    (s.ticks i = 0 → callsFor (input_pins.getD i 0) r.events = [] ∧ r.state.ticks i = 0) ∧
    (callsFor (input_pins.getD i 0) r.events ≠ [] → r.exitCode = none →
      r.state.ticks i = 0) := by
  intro r
  obtain ⟨e1, -, e3, e4, -, -⟩ := press_summary j (input_pins.getD j 0) d s
  by_cases hji : j = i
  · subst hji
    have hne := hpend rfl
    refine ⟨?_, fun h0 => absurd h0 hne, fun _ hx => e4 hx⟩
    simp only [r]
    rw [e1, hb_calls]
    simp
  · have hpin : input_pins.getD j 0 ≠ input_pins.getD i 0 := by
      have hi2 : i < 2 := hi
      have hj2 : j < 2 := hj
      interval_cases i <;> interval_cases j <;> first | exact absurd rfl hji | decide
    have hcalls : callsFor (input_pins.getD i 0) r.events = [] := by
      simp only [r]
      rw [e1, hb_calls, if_neg hpin]
    have ht : r.state.ticks i = s.ticks i := e3 i (fun e => hji e.symm)
    refine ⟨by rw [hcalls]; simp, fun h0 => ⟨hcalls, by rw [ht]; exact h0⟩,
      fun hne => absurd hcalls hne⟩

theorem once_timeout_line (now : Int) (i j : Nat) (hi : i < n_input_pins)
    (hj : j < n_input_pins) : Once (input_pins.getD i 0) i (timeout_line now j) := by
  intro s
  by_cases hc : s.ticks j > 0 ∧ now - s.ticks j ≥ LONG_PRESS
  · rw [timeout_line_fire now j s hc]
    refine once_press i j hi hj _ s ?_
    intro hji
    subst hji
    exact ne_of_gt hc.1
  · rw [timeout_line_idle now j s hc]
    exact once_ret _ i s

theorem once_edge_line (i j : Nat) (hi : i < n_input_pins) (hj : j < n_input_pins)
    (y : LineIn)
    (hlow : j = i → ¬ (y.revents &&& POLLPRI ≠ 0 ∧ y.nread = 2 ∧ y.byte0 - CHAR_0 = LOW)) :
    Once (input_pins.getD i 0) i (edge_line j y) := by
  intro s
  by_cases hp : y.revents &&& POLLPRI = 0
  · rw [edge_line_skip j y s (Or.inl hp)]; exact once_ret _ i s
  by_cases hn : y.nread = 2
  swap
  · rw [edge_line_skip j y s (Or.inr (Or.inl hn))]; exact once_ret _ i s
  by_cases h0 : y.byte0 - CHAR_0 = LOW
  · have hji : j ≠ i := fun e => hlow e ⟨hp, hn, h0⟩
    rw [edge_line_low j y s hp hn h0]
    have ht : (setTick j y.now s).ticks i = s.ticks i := setTick_other i j _ s hji
    refine ⟨by simp [Run.ret, callsFor], ?_, ?_⟩
    · intro hz
      exact ⟨by simp [Run.ret, callsFor], by simp only [Run.ret]; rw [ht]; exact hz⟩
    · intro hne
      simp [Run.ret, callsFor] at hne
  by_cases h1 : y.byte0 - CHAR_0 = HIGH
  swap
  · rw [edge_line_skip j y s (Or.inr (Or.inr (Or.inl ⟨h0, h1⟩)))]; exact once_ret _ i s
  by_cases ht : s.ticks j = 0
  · rw [edge_line_skip j y s (Or.inr (Or.inr (Or.inr ⟨h1, ht⟩)))]; exact once_ret _ i s
  rw [edge_line_high j y s hp hn h1 ht]
  by_cases hd : y.now - s.ticks j ≥ BOUNCE_MSEC
  · rw [if_pos hd]
    refine once_press i j hi hj _ s ?_
    intro hji
    subst hji
    exact ht
  · rw [if_neg hd, andThen_ret]
    by_cases hji : j = i
    · subst hji
      refine ⟨by simp [Run.ret, callsFor], fun hz => absurd hz ht, ?_⟩
      intro hne
      simp [Run.ret, callsFor] at hne
    · have ht' : (setTick j 0 s).ticks i = s.ticks i := setTick_other i j _ s hji
      refine ⟨by simp [Run.ret, callsFor], ?_, ?_⟩
      · intro hz
        exact ⟨by simp [Run.ret, callsFor], by simp only [Run.ret]; rw [ht']; exact hz⟩
      · intro hne
        simp [Run.ret, callsFor] at hne

theorem once_loop_body (i : Nat) (hi : i < n_input_pins) (x : Iter)
    (hl : ¬ lowReading x i) : Once (input_pins.getD i 0) i (loop_body x) := by
  intro s
  by_cases hpoll : x.pollRet ≠ 0
  · have he : loop_body x s =
        forLines (fun j => edge_line j (x.line j)) (List.range n_input_pins) s := by
      simp only [loop_body]; rw [if_pos hpoll]
    rw [he]
    refine once_forLines _ i _ _ ?_ s
    intro j hj
    refine once_edge_line i j hi (List.mem_range.mp hj) (x.line j) ?_
    intro hji h
    subst hji
    exact hl ⟨hpoll, h.1, h.2.1, h.2.2⟩
  · have he : loop_body x s = forLines (timeout_line x.now) (List.range n_input_pins) s := by
      simp only [loop_body]; rw [if_neg hpoll]
    rw [he]
    refine once_forLines _ i _ _ ?_ s
    intro j hj
    exact once_timeout_line x.now i j hi (List.mem_range.mp hj)

theorem once_main_loop (i : Nat) (hi : i < n_input_pins) (xs : List Iter)
    (hl : ∀ x ∈ xs, ¬ lowReading x i) : Once (input_pins.getD i 0) i (main_loop xs) := by
  induction xs with
  | nil => exact once_ret _ i
  | cons x rest ih =>
    have h1 := once_loop_body i hi x (hl x (List.mem_cons_self x rest))
    have h2 := ih fun y hy => hl y (List.mem_cons_of_mem x hy)
    exact once_andThen _ i (loop_body x) (main_loop rest) h1 h2

/-! ## A rising edge completes the press -/

theorem andThen_assoc (r : Run) (f g : State → Run) :
    (r.andThen f).andThen g = r.andThen fun t => (f t).andThen g := by
  cases hc : r.exitCode with
  | some c =>
    have hx : r.exitCode ≠ none := by rw [hc]; simp
    rw [andThen_some r f hx, andThen_some r g hx]
    exact (andThen_some r _ hx).symm
  | none =>
    cases hf : (f r.state).exitCode with
    | some d => simp [Run.andThen, hc, hf]
    | none => simp [Run.andThen, hc, hf, List.append_assoc]

theorem main_loop_append (a b : List Iter) (s : State) :
    main_loop (a ++ b) s = (main_loop a s).andThen (main_loop b) := by
  induction a generalizing s with
  | nil =>
    show main_loop b s = (Run.ret s).andThen (main_loop b)
    rw [andThen_ret]
  | cons x rest ih =>
    show (loop_body x s).andThen (main_loop (rest ++ b)) =
      ((loop_body x s).andThen (main_loop rest)).andThen (main_loop b)
    rw [andThen_assoc]
    congr 1
    funext t
    exact ih t

theorem main_loop_single (x : Iter) (s : State) : main_loop [x] s = loop_body x s := by
  show (loop_body x s).andThen (main_loop []) = loop_body x s
  exact andThen_ret_right _

theorem loop_body_edge (x : Iter) (s : State) (h : x.pollRet ≠ 0) :
    loop_body x s =
      (edge_line 0 (x.line 0) s).andThen fun s1 => edge_line 1 (x.line 1) s1 := by
  have hr : List.range n_input_pins = [0, 1] := by decide
  have h1 : forLines (fun i => edge_line i (x.line i)) [1] =
      fun s1 => edge_line 1 (x.line 1) s1 := by
    funext s1
    simp only [forLines]
    exact andThen_ret_right _
  simp only [loop_body, hr]
  rw [if_pos h]
  simp only [forLines] at h1 ⊢
  simp [h1]

/-- Processing line `j` in the edge path leaves the timers of the other lines
alone. -/
theorem edge_line_ticks_other (i j : Nat) (y : LineIn) (s : State) (hji : j ≠ i) :
    (edge_line j y s).state.ticks i = s.ticks i := by
  by_cases hp : y.revents &&& POLLPRI = 0
  · rw [edge_line_skip j y s (Or.inl hp)]; rfl
  by_cases hn : y.nread = 2
  swap
  · rw [edge_line_skip j y s (Or.inr (Or.inl hn))]; rfl
  by_cases h0 : y.byte0 - CHAR_0 = LOW
  · rw [edge_line_low j y s hp hn h0]
    exact setTick_other i j _ s hji
  by_cases h1 : y.byte0 - CHAR_0 = HIGH
  swap
  · rw [edge_line_skip j y s (Or.inr (Or.inr (Or.inl ⟨h0, h1⟩)))]; rfl
  by_cases ht : s.ticks j = 0
  · rw [edge_line_skip j y s (Or.inr (Or.inr (Or.inr ⟨h1, ht⟩)))]; rfl
  rw [edge_line_high j y s hp hn h1 ht]
  by_cases hd : y.now - s.ticks j ≥ BOUNCE_MSEC
  · rw [if_pos hd]
    exact (press_summary j _ _ s).2.2.1 i (fun e => hji e.symm)
  · rw [if_neg hd, andThen_ret]
    exact setTick_other i j _ s hji

/-- A High reading on line `i` leaves `ticks[i]` at 0 when control returns,
whether the press is acted on, dropped as a bounce, or was not pending. -/
theorem edge_line_clears (i : Nat) (y : LineIn) (s : State)
    (hp : y.revents &&& POLLPRI ≠ 0) (hn : y.nread = 2) (hv : y.byte0 - CHAR_0 = HIGH)
    (hx : (edge_line i y s).exitCode = none) : (edge_line i y s).state.ticks i = 0 := by
  by_cases ht : s.ticks i = 0
  · rw [edge_line_skip i y s (Or.inr (Or.inr (Or.inr ⟨hv, ht⟩)))]
    exact ht
  · rw [edge_line_high i y s hp hn hv ht] at hx ⊢
    by_cases hd : y.now - s.ticks i ≥ BOUNCE_MSEC
    · rw [if_pos hd] at hx ⊢
      exact (press_summary i _ _ s).2.2.2.1 hx
    · rw [if_neg hd, andThen_ret]
      exact setTick_same i 0 s

/-- An iteration that reads a rising edge on line `i` and is not cut short by
`exit` ends with `ticks[i] = 0`. -/
theorem loop_body_high_clears (i : Nat) (hi : i < n_input_pins) (x : Iter)
    (hh : highReading x i) (s : State) (hx : (loop_body x s).exitCode = none) :
    (loop_body x s).state.ticks i = 0 := by
  obtain ⟨hpoll, hp, hn, hv⟩ := hh
  rw [loop_body_edge x s hpoll] at hx ⊢
  cases hc0 : (edge_line 0 (x.line 0) s).exitCode with
  | some c =>
    have hne : (edge_line 0 (x.line 0) s).exitCode ≠ none := by rw [hc0]; simp
    rw [andThen_some _ _ hne] at hx
    exact absurd hx hne
  | none =>
    rw [andThen_none _ _ hc0] at hx ⊢
    have hi2 : i < 2 := hi
    interval_cases i
    · show (edge_line 1 (x.line 1) (edge_line 0 (x.line 0) s).state).state.ticks 0 = 0
      rw [edge_line_ticks_other 0 1 _ _ (by decide)]
      exact edge_line_clears 0 (x.line 0) s hp hn hv hc0
    · exact edge_line_clears 1 (x.line 1) _ hp hn hv hx

/-- Once `ticks[i]` is 0 and the run so far has returned, iterations without
a Low reading on line `i` add no call for line `i`; after an `exit` nothing is
added at all. -/
theorem calls_settled (i : Nat) (hi : i < n_input_pins) (a b : List Iter) (s : State)
    (hb : ∀ x ∈ b, ¬ lowReading x i)
    (hz : (main_loop a s).exitCode = none → (main_loop a s).state.ticks i = 0) :
    callsFor (input_pins.getD i 0) (main_loop (a ++ b) s).events =
      callsFor (input_pins.getD i 0) (main_loop a s).events := by
  rw [main_loop_append]
  cases hc : (main_loop a s).exitCode with
  | some c => rw [andThen_some _ _ (by rw [hc]; simp)]
  | none =>
    rw [andThen_none _ _ hc]
    simp only [callsFor_append]
    rw [((once_main_loop i hi b hb (main_loop a s).state).2.1 (hz hc)).1, List.append_nil]

/-- C7: from any state (in particular the one reached right after a Low
reading set `ticks[i]`), a run of loop iterations, edge returns and timeouts
in any order, with no Low reading on line `i` calls `handle_button` for line
`i` at most once.  Once a first part of the run has made the call, by the
timeout path or by a rising edge, the rest of the run does not make it again.
Once an iteration of the run has read a rising edge on line `i`, whether the
press was acted on or dropped as a bounce, no later iteration, timeout or
edge, calls `handle_button` for line `i`. -/
theorem one_call_per_press (i : Nat) (hi : i < n_input_pins) (s : State) (xs : List Iter)
    (hl : ∀ x ∈ xs, ¬ lowReading x i) :
    (callsFor (input_pins.getD i 0) (main_loop xs s).events).length ≤ 1 ∧
    (∀ pre post, xs = pre ++ post →
      callsFor (input_pins.getD i 0) (main_loop pre s).events ≠ [] →
      (main_loop pre s).exitCode = none →
      callsFor (input_pins.getD i 0) (main_loop post (main_loop pre s).state).events = []) ∧
    (∀ pre post, xs = pre ++ post →
      callsFor (input_pins.getD i 0) (main_loop pre s).events ≠ [] →
      callsFor (input_pins.getD i 0) (main_loop xs s).events =
        callsFor (input_pins.getD i 0) (main_loop pre s).events) ∧
    (∀ pre x post, xs = pre ++ x :: post → highReading x i →
      callsFor (input_pins.getD i 0) (main_loop xs s).events =
        callsFor (input_pins.getD i 0) (main_loop (pre ++ [x]) s).events) := by
  refine ⟨(once_main_loop i hi xs hl s).1, ?_, ?_, ?_⟩
  · intro pre post hx hne hrun
    subst hx
    have hpre := once_main_loop i hi pre (fun x hx => hl x (List.mem_append_left post hx)) s
    have hpost := once_main_loop i hi post (fun x hx => hl x (List.mem_append_right pre hx))
      (main_loop pre s).state
    exact (hpost.2.1 (hpre.2.2 hne hrun)).1
  · intro pre post hx hne
    subst hx
    have hpre := once_main_loop i hi pre (fun x hx => hl x (List.mem_append_left post hx)) s
    exact calls_settled i hi pre post s (fun x hx => hl x (List.mem_append_right pre hx))
      (hpre.2.2 hne)
  · intro pre x post hx hh
    subst hx
    have hsplit : pre ++ x :: post = (pre ++ [x]) ++ post := by simp
    rw [hsplit]
    refine calls_settled i hi (pre ++ [x]) post s
      (fun y hy => hl y (List.mem_append_right pre (List.mem_cons_of_mem x hy))) ?_
    intro hrun
    rw [main_loop_append] at hrun ⊢
    cases hc : (main_loop pre s).exitCode with
    | some c =>
      have hne : (main_loop pre s).exitCode ≠ none := by rw [hc]; simp
      rw [andThen_some _ _ hne] at hrun
      exact absurd hrun hne
    | none =>
      rw [andThen_none _ _ hc] at hrun ⊢
      simp only [main_loop_single] at hrun ⊢
      exact loop_body_high_clears i hi x hh _ hrun

/-- Witness for `one_call_per_press`, on MainButton with MainPower reading
High and a Low reading at time 1000.  First run: the timeout path acts at
5000 and the rising edge read at 5010 adds nothing.  Second run: the rising
edge is read at 1050 and dropped as a bounce, and the timeout at 5000 makes no
call. -/
theorem one_call_per_press_witness :
    0 < n_input_pins ∧
    lowReading (edgeAt (lowAt 1000) quiet) 0 ∧
    (∀ x ∈ [timeoutAt 5000, edgeAt (highAt 5010) quiet], ¬ lowReading x 0) ∧
    callsFor PIN_IN_MAIN
      (main_loop [timeoutAt 5000, edgeAt (highAt 5010) quiet]
        (loop_body (edgeAt (lowAt 1000) quiet) (stateOf 1 1)).state).events = [4000] ∧
    (callsFor PIN_IN_MAIN
      (main_loop [timeoutAt 5000, edgeAt (highAt 5010) quiet]
        (loop_body (edgeAt (lowAt 1000) quiet) (stateOf 1 1)).state).events).length ≤ 1 ∧
    (∀ x ∈ [edgeAt (highAt 1050) quiet, timeoutAt 5000], ¬ lowReading x 0) ∧
    highReading (edgeAt (highAt 1050) quiet) 0 ∧
    callsFor PIN_IN_MAIN
      (main_loop [edgeAt (highAt 1050) quiet]
        (loop_body (edgeAt (lowAt 1000) quiet) (stateOf 1 1)).state).events = [] ∧
    callsFor PIN_IN_MAIN
      (main_loop [edgeAt (highAt 1050) quiet, timeoutAt 5000]
        (loop_body (edgeAt (lowAt 1000) quiet) (stateOf 1 1)).state).events =
      callsFor PIN_IN_MAIN
        (main_loop ([] ++ [edgeAt (highAt 1050) quiet])
          (loop_body (edgeAt (lowAt 1000) quiet) (stateOf 1 1)).state).events :=
  ⟨by decide, by decide, by decide, by decide,
    (one_call_per_press 0 (by decide)
      (loop_body (edgeAt (lowAt 1000) quiet) (stateOf 1 1)).state
      [timeoutAt 5000, edgeAt (highAt 5010) quiet] (by decide)).1,
    by decide, by decide, by decide,
    (one_call_per_press 0 (by decide)
      (loop_body (edgeAt (lowAt 1000) quiet) (stateOf 1 1)).state
      [edgeAt (highAt 1050) quiet, timeoutAt 5000] (by decide)).2.2.2
      [] (edgeAt (highAt 1050) quiet) [timeoutAt 5000] rfl (by decide)⟩

/-! ## The timeout path as a whole -/

theorem loop_body_timeout (x : Iter) (s : State) (h : x.pollRet = 0) :
    loop_body x s =
      (timeout_line x.now 0 s).andThen fun s1 => timeout_line x.now 1 s1 := by
  have hr : List.range n_input_pins = [0, 1] := by decide
  have h1 : forLines (timeout_line x.now) [1] = fun s1 => timeout_line x.now 1 s1 := by
    funext s1
    simp only [forLines]
    exact andThen_ret_right _
  simp only [loop_body, h, hr]
  simp only [forLines] at h1 ⊢
  simp [h1]

theorem timeout_line_frame (now : Int) (i : Nat) (s : State) :
    (∀ j, j ≠ i → (timeout_line now i s).state.ticks j = s.ticks j) ∧
    (∀ q, callsFor q (timeout_line now i s).events =
      if (s.ticks i > 0 ∧ now - s.ticks i ≥ LONG_PRESS) ∧ input_pins.getD i 0 = q then
        [now - s.ticks i] else []) ∧
    (timeout_line now i s).state.gpio.wrOpen = s.gpio.wrOpen ∧
    (outputsOpenable s.gpio → (timeout_line now i s).exitCode = none) ∧
    ((s.ticks i > 0 ∧ now - s.ticks i ≥ LONG_PRESS) →
      (timeout_line now i s).exitCode = none → (timeout_line now i s).state.ticks i = 0) := by
  by_cases hc : s.ticks i > 0 ∧ now - s.ticks i ≥ LONG_PRESS
  · obtain ⟨e1, e2, e3, e4, -, e6⟩ :=
      press_summary i (input_pins.getD i 0) (now - s.ticks i) s
    rw [timeout_line_fire now i s hc]
    refine ⟨e3, ?_, e6, ?_, fun _ => e4⟩
    · intro q
      rw [e1, hb_calls]
      by_cases hq : input_pins.getD i 0 = q <;> simp [hq, hc]
    · intro hw
      rw [e2]
      exact hb_returns _ _ _ hw
  · rw [timeout_line_idle now i s hc]
    refine ⟨fun _ _ => rfl, ?_, rfl, fun _ => rfl, fun h => absurd h hc⟩
    intro q
    simp [Run.ret, callsFor, hc]

/-- C6: in the timeout path at time `now`, from a state whose timers are
non-negative (they are 0 or clock readings), for every input line: if its
timer is pending and `now - ticks[i] ≥ LONG_PRESS`, then, provided the
iteration is not cut short by `exit`, `handle_button` is called for that line
once, with duration `now - ticks[i]`, and the timer is cleared; otherwise
`handle_button` is not called for that line and its timer is unchanged.  The
iteration is not cut short when the output value files can be opened.  With
MainButton pending for at least `LONG_PRESS` and MainPower reading High, the
iteration calls `set_output(PIN_OUT_MAIN, LOW)`. -/
theorem timeout_path (x : Iter) (s : State) (hpoll : x.pollRet = 0)
    (hnn : ∀ j, 0 ≤ s.ticks j) :
    (∀ i, i < n_input_pins →
      (s.ticks i ≠ 0 ∧ LONG_PRESS ≤ x.now - s.ticks i →
        (loop_body x s).exitCode = none →
        callsFor (input_pins.getD i 0) (loop_body x s).events = [x.now - s.ticks i] ∧
        (loop_body x s).state.ticks i = 0) ∧
      (¬ (s.ticks i ≠ 0 ∧ LONG_PRESS ≤ x.now - s.ticks i) →
        callsFor (input_pins.getD i 0) (loop_body x s).events = [] ∧
        (loop_body x s).state.ticks i = s.ticks i)) ∧
    (outputsOpenable s.gpio → (loop_body x s).exitCode = none) ∧
    (s.ticks 0 ≠ 0 → LONG_PRESS ≤ x.now - s.ticks 0 →
      get_pin_state s.gpio PIN_OUT_MAIN = HIGH →
      (PIN_OUT_MAIN, LOW) ∈ writes (loop_body x s).events) := by
  have hpend : ∀ j, (s.ticks j ≠ 0 ∧ LONG_PRESS ≤ x.now - s.ticks j) ↔
      (s.ticks j > 0 ∧ x.now - s.ticks j ≥ LONG_PRESS) := by
    intro j
    have := hnn j
    constructor
    · rintro ⟨a, b⟩
      exact ⟨lt_of_le_of_ne this (Ne.symm a), b⟩
    · rintro ⟨a, b⟩
      exact ⟨ne_of_gt a, b⟩
  obtain ⟨a1, a2, a3, a4, a5⟩ := timeout_line_frame x.now 0 s
  obtain ⟨b1, b2, b3, b4, b5⟩ := timeout_line_frame x.now 1 (timeout_line x.now 0 s).state
  have ht1 : (timeout_line x.now 0 s).state.ticks 1 = s.ticks 1 := a1 1 (by decide)
  rw [ht1] at b2 b5
  have hbody := loop_body_timeout x s hpoll
  have hp01 : input_pins.getD 0 0 ≠ input_pins.getD 1 0 := by decide
  have hp10 : input_pins.getD 1 0 ≠ input_pins.getD 0 0 := by decide
  have c10 : callsFor (input_pins.getD 0 0)
      (timeout_line x.now 1 (timeout_line x.now 0 s).state).events = [] := by
    rw [b2, if_neg (fun h => hp10 h.2)]
  have c01 : callsFor (input_pins.getD 1 0) (timeout_line x.now 0 s).events = [] := by
    rw [a2, if_neg (fun h => hp01 h.2)]
  have hmain : s.ticks 0 ≠ 0 → LONG_PRESS ≤ x.now - s.ticks 0 →
      get_pin_state s.gpio PIN_OUT_MAIN = HIGH →
      (PIN_OUT_MAIN, LOW) ∈ writes (timeout_line x.now 0 s).events := by
    intro h0 h1 hm
    have hc := (hpend 0).mp ⟨h0, h1⟩
    rw [timeout_line_fire x.now 0 s hc, (press_summary 0 _ _ s).1]
    have hpin : input_pins.getD 0 0 = PIN_IN_MAIN := by decide
    rw [hpin, hb_main_high s _ hm, (hb_then_set_output s _ _ _ _).1]
    simp
  cases hc0 : (timeout_line x.now 0 s).exitCode with
  | none =>
    rw [andThen_none _ _ hc0] at hbody
    refine ⟨?_, ?_, ?_⟩
    · intro i hi
      have hi2 : i < 2 := hi
      interval_cases i
      · rw [hbody]
        simp only [callsFor_append, c10, List.append_nil]
        constructor
        · intro hc _
          have hc' := (hpend 0).mp hc
          refine ⟨by rw [a2]; simp [hc'], ?_⟩
          rw [b1 0 (by decide)]
          exact a5 hc' hc0
        · intro hc
          have hc' : ¬ (s.ticks 0 > 0 ∧ x.now - s.ticks 0 ≥ LONG_PRESS) :=
            fun h => hc ((hpend 0).mpr h)
          refine ⟨by rw [a2]; simp [hc'], ?_⟩
          rw [b1 0 (by decide), timeout_line_idle x.now 0 s hc']
          rfl
      · rw [hbody]
        simp only [callsFor_append, c01, List.nil_append]
        constructor
        · intro hc hx
          have hc' := (hpend 1).mp hc
          refine ⟨by rw [b2]; simp [hc'], ?_⟩
          have h5 := b5 hc' hx
          exact h5
        · intro hc
          have hc' : ¬ (s.ticks 1 > 0 ∧ x.now - s.ticks 1 ≥ LONG_PRESS) :=
            fun h => hc ((hpend 1).mpr h)
          refine ⟨by rw [b2]; simp [hc'], ?_⟩
          have hc'' : ¬ ((timeout_line x.now 0 s).state.ticks 1 > 0 ∧
              x.now - (timeout_line x.now 0 s).state.ticks 1 ≥ LONG_PRESS) := by
            rw [ht1]; exact hc'
          rw [timeout_line_idle x.now 1 _ hc'']
          exact ht1
    · intro hw
      rw [hbody]
      apply b4
      unfold outputsOpenable
      rw [a3]
      exact hw
    · intro h0 h1 hm
      rw [hbody]
      simp only [writes_append]
      exact List.mem_append_left _ (hmain h0 h1 hm)
  | some c =>
    have hx : (timeout_line x.now 0 s).exitCode ≠ none := by rw [hc0]; simp
    rw [andThen_some _ _ hx] at hbody
    refine ⟨?_, ?_, ?_⟩
    · intro i hi
      have hi2 : i < 2 := hi
      interval_cases i
      · rw [hbody]
        constructor
        · intro _ hn
          exact absurd hn hx
        · intro hc
          have hc' : ¬ (s.ticks 0 > 0 ∧ x.now - s.ticks 0 ≥ LONG_PRESS) :=
            fun h => hc ((hpend 0).mpr h)
          refine ⟨by rw [a2]; simp [hc'], ?_⟩
          rw [timeout_line_idle x.now 0 s hc']
          rfl
      · rw [hbody]
        constructor
        · intro _ hn
          exact absurd hn hx
        · intro _
          exact ⟨c01, ht1⟩
    · intro hw
      exact absurd (a4 hw) hx
    · intro h0 h1 hm
      rw [hbody]
      exact hmain h0 h1 hm

/-- Witness for `timeout_path`: MainButton held since time 1000 with
MainPower reading High, and `poll` timing out at time 5000. -/
theorem timeout_path_witness :
    (timeoutAt 5000).pollRet = 0 ∧ (∀ j, 0 ≤ (pressedState 1 1 1000 0).ticks j) ∧
    (PIN_OUT_MAIN, LOW) ∈ writes (loop_body (timeoutAt 5000) (pressedState 1 1 1000 0)).events ∧
    callsFor PIN_IN_MAIN (loop_body (timeoutAt 5000) (pressedState 1 1 1000 0)).events
      = [4000] ∧
    (loop_body (timeoutAt 5000) (pressedState 1 1 1000 0)).state.ticks 0 = 0 ∧
    callsFor PIN_IN_LED (loop_body (timeoutAt 5000) (pressedState 1 1 1000 0)).events = [] :=
  have hn : ∀ j, 0 ≤ (pressedState 1 1 1000 0).ticks j := by
    intro j
    simp only [pressedState]
    split_ifs <;> decide
  ⟨rfl, hn,
    (timeout_path (timeoutAt 5000) (pressedState 1 1 1000 0) rfl hn).2.2
      (by decide) (by decide) (by decide),
    (((timeout_path (timeoutAt 5000) (pressedState 1 1 1000 0) rfl hn).1 0 (by decide)).1
      (by decide) (by decide)).1,
    (((timeout_path (timeoutAt 5000) (pressedState 1 1 1000 0) rfl hn).1 0 (by decide)).1
      (by decide) (by decide)).2,
    (((timeout_path (timeoutAt 5000) (pressedState 1 1 1000 0) rfl hn).1 1 (by decide)).2
      (by decide)).1⟩

/-! ## Output files that cannot be opened -/

theorem stops_ret : StopsOnWrite Run.ret := by
  intro s _
  exact Or.inl ⟨rfl, rfl, rfl⟩

theorem stops_setTick (i : Nat) (v : Int) : StopsOnWrite fun s => Run.ret (setTick i v s) := by
  intro s _
  exact Or.inl ⟨rfl, rfl, rfl⟩

theorem stops_andThen (f g : State → Run) (hf : StopsOnWrite f) (hg : StopsOnWrite g) :
    StopsOnWrite fun s => (f s).andThen g := by
  intro s hs
  rcases hf s hs with ⟨f1, f2, f3⟩ | ⟨f1, p, f2⟩
  · have hs' : outputsShut (f s).state.gpio := by rw [f3]; exact hs
    simp only [andThen_none (f s) g f2, writes_append, f1, List.nil_append]
    rcases hg (f s).state hs' with ⟨g1, g2, g3⟩ | ⟨g1, p, g2⟩
    · exact Or.inl ⟨g1, g2, g3.trans f3⟩
    · exact Or.inr ⟨g1, p, List.mem_append_right _ g2⟩
  · have hx : (f s).exitCode ≠ none := by rw [f1]; simp
    simp only [andThen_some (f s) g hx]
    exact Or.inr ⟨f1, p, f2⟩

theorem stops_handle_button (pin msec : Int) : StopsOnWrite (handle_button pin msec) := by
  intro s hs
  rcases hb_shape pin msec s with h | ⟨p, v, hp, h⟩
  · rw [h]
    exact Or.inl ⟨rfl, rfl, rfl⟩
  · have hw : s.gpio.wrOpen p ≠ true := by
      rcases hp with rfl | rfl
      · rw [hs.1]; simp
      · rw [hs.2]; simp
    rw [h, andThen_emit, set_output_closed p v s hw]
    exact Or.inr ⟨rfl, p, by simp⟩

theorem stops_forLines (body : Nat → State → Run) (ls : List Nat)
    (h : ∀ j, StopsOnWrite (body j)) : StopsOnWrite (forLines body ls) := by
  induction ls with
  | nil => exact stops_ret
  | cons j rest ih => exact stops_andThen (body j) (forLines body rest) (h j) ih

theorem stops_edge_line (i : Nat) (y : LineIn) : StopsOnWrite (edge_line i y) := by
  intro s hs
  by_cases hp : y.revents &&& POLLPRI = 0
  · rw [edge_line_skip i y s (Or.inl hp)]; exact stops_ret s hs
  by_cases hn : y.nread = 2
  swap
  · rw [edge_line_skip i y s (Or.inr (Or.inl hn))]; exact stops_ret s hs
  by_cases h0 : y.byte0 - CHAR_0 = LOW
  · rw [edge_line_low i y s hp hn h0]; exact stops_setTick i y.now s hs
  by_cases h1 : y.byte0 - CHAR_0 = HIGH
  swap
  · rw [edge_line_skip i y s (Or.inr (Or.inr (Or.inl ⟨h0, h1⟩)))]; exact stops_ret s hs
  by_cases ht : s.ticks i = 0
  · rw [edge_line_skip i y s (Or.inr (Or.inr (Or.inr ⟨h1, ht⟩)))]; exact stops_ret s hs
  rw [edge_line_high i y s hp hn h1 ht]
  by_cases hd : y.now - s.ticks i ≥ BOUNCE_MSEC
  · rw [if_pos hd]
    exact stops_andThen _ _ (stops_handle_button _ _) (stops_setTick i 0) s hs
  · rw [if_neg hd]
    exact stops_andThen _ _ stops_ret (stops_setTick i 0) s hs

theorem stops_timeout_line (now : Int) (i : Nat) : StopsOnWrite (timeout_line now i) := by
  intro s hs
  by_cases hc : s.ticks i > 0 ∧ now - s.ticks i ≥ LONG_PRESS
  · rw [timeout_line_fire now i s hc]
    exact stops_andThen _ _ (stops_handle_button _ _) (stops_setTick i 0) s hs
  · rw [timeout_line_idle now i s hc]
    exact stops_ret s hs

theorem stops_loop_body (x : Iter) : StopsOnWrite (loop_body x) := by
  intro s hs
  by_cases hpoll : x.pollRet ≠ 0
  · have he : loop_body x s =
        forLines (fun j => edge_line j (x.line j)) (List.range n_input_pins) s := by
      simp only [loop_body]; rw [if_pos hpoll]
    rw [he]
    exact stops_forLines _ _ (fun j => stops_edge_line j (x.line j)) s hs
  · have he : loop_body x s = forLines (timeout_line x.now) (List.range n_input_pins) s := by
      simp only [loop_body]; rw [if_neg hpoll]
    rw [he]
    exact stops_forLines _ _ (fun j => stops_timeout_line x.now j) s hs

/-- A `set_output` call made by `handle_button` on a pin whose value file
cannot be opened ends the program. -/
theorem hb_write_shut (pin msec : Int) (t : State) (p v : Int)
    (hmem : (p, v) ∈ writes (handle_button pin msec t).events)
    (hw : t.gpio.wrOpen p = false) :
    (handle_button pin msec t).exitCode = some (-1) ∧
    Event.cantWrite p ∈ (handle_button pin msec t).events := by
  rcases hb_shape pin msec t with h | ⟨q, u, -, h⟩
  · rw [h] at hmem
    simp [writes] at hmem
  · have hq : (p, v) = (q, u) := by
      rw [h, (hb_then_set_output t pin msec q u).1] at hmem
      simpa using hmem
    obtain ⟨rfl, rfl⟩ := Prod.mk.inj hq
    rw [h, andThen_emit, set_output_closed p v t (by rw [hw]; simp)]
    exact ⟨rfl, by simp⟩

/-- C8 (as amended): a `set_output` call made during a button decision on a
pin whose value file cannot be opened prints the `Can't write to ...`
diagnostic and calls `exit(-1)`.  With both output value files shut, a loop
iteration that calls `set_output` therefore ends the program, and no later
iteration runs.  A write that is lost after the file was opened is not
noticed: nothing is logged, nothing changes and the program goes on. -/
theorem write_failure_exits (x : Iter) (xs : List Iter) (s : State)
    (hshut : outputsShut s.gpio) (hwr : writes (loop_body x s).events ≠ []) :
    (loop_body x s).exitCode = some (-1) ∧
    (∃ p, Event.cantWrite p ∈ (loop_body x s).events) ∧
    main_loop (x :: xs) s = loop_body x s ∧
    (∀ (pin msec : Int) (t : State) (p v : Int),
      (p, v) ∈ writes (handle_button pin msec t).events → t.gpio.wrOpen p = false →
      (handle_button pin msec t).exitCode = some (-1) ∧
      Event.cantWrite p ∈ (handle_button pin msec t).events) ∧
    (∀ (p v : Int) (t : State), t.gpio.wrOpen p = true → t.gpio.wrStore p = false →
      set_output p v t = ⟨t, [Event.set_output p v], none⟩) := by
  rcases stops_loop_body x s hshut with ⟨h1, -, -⟩ | ⟨h1, h2⟩
  · exact absurd h1 hwr
  · refine ⟨h1, h2, ?_, ?_, ?_⟩
    · show (loop_body x s).andThen (main_loop xs) = loop_body x s
      exact andThen_some _ _ (by rw [h1]; simp)
    · intro pin msec t p v hmem hw
      exact hb_write_shut pin msec t p v hmem hw
    · intro p v t hw hs
      exact set_output_lost p v t hw (by rw [hs]; simp)

/-- Witness for `write_failure_exits`: MainButton released after 200 ms with
MainPower reading High and the output files shut. -/
theorem write_failure_exits_witness :
    outputsShut (shutState 1 1 1000 0).gpio ∧
    writes (loop_body (edgeAt (highAt 1200) quiet) (shutState 1 1 1000 0)).events ≠ [] ∧
    (loop_body (edgeAt (highAt 1200) quiet) (shutState 1 1 1000 0)).exitCode = some (-1) :=
  ⟨by decide, by decide,
    (write_failure_exits (edgeAt (highAt 1200) quiet) [] (shutState 1 1 1000 0)
      (by decide) (by decide)).1⟩

/-- C8 as stated fails: MainButton is released after 200 ms with MainPower
reading High while the value file of MainPower cannot be opened.  The write
fails, the program exits with code -1, and the next iteration (a second press
of LedButton released at 9000) does not run: no event follows the
diagnostic. -/
theorem write_failure_counterexample :
    (main_loop [edgeAt (highAt 1200) quiet, edgeAt quiet (highAt 9000)]
      (shutState 1 1 1000 8000)).exitCode ≠ none ∧
    (main_loop [edgeAt (highAt 1200) quiet, edgeAt quiet (highAt 9000)]
      (shutState 1 1 1000 8000)).exitCode = some (-1) ∧
    (main_loop [edgeAt (highAt 1200) quiet, edgeAt quiet (highAt 9000)]
      (shutState 1 1 1000 8000)).events =
      [Event.handle_button PIN_IN_MAIN 200, Event.set_output PIN_OUT_MAIN LOW,
        Event.cantWrite PIN_OUT_MAIN] :=
  ⟨by decide, by decide, by decide⟩

/-- Witness for `failed_read_ignored`: a one-byte read on a signaled line,
and a MainButton press while the value file of MainPower cannot be opened for
reading. -/
theorem failed_read_ignored_witness :
    (edge_line 0 ⟨POLLPRI, 1, CHAR_1, 1200⟩ (pressedState 0 1 1000 0)).events = [] ∧
    (edge_line 0 ⟨POLLPRI, 1, CHAR_1, 1200⟩ (pressedState 0 1 1000 0)).state.ticks 0 = 1000 ∧
    get_pin_state { gpioOf 1 1 with rdOpen := fun _ => -1 } PIN_OUT_MAIN = -1 ∧
    writes (handle_button PIN_IN_MAIN 200
      ⟨fun _ => 0, { gpioOf 1 1 with rdOpen := fun _ => -1 }⟩).events = [] :=
  ⟨congrArg Run.events (failed_read_ignored.1 0 ⟨POLLPRI, 1, CHAR_1, 1200⟩
      (pressedState 0 1 1000 0) (Or.inl (by decide))),
    congrArg (fun r => r.state.ticks 0) (failed_read_ignored.1 0 ⟨POLLPRI, 1, CHAR_1, 1200⟩
      (pressedState 0 1 1000 0) (Or.inl (by decide))),
    failed_read_ignored.2.1 { gpioOf 1 1 with rdOpen := fun _ => -1 } PIN_OUT_MAIN
      (Or.inl (by decide)),
    (failed_read_ignored.2.2.1 PIN_IN_MAIN 200
      ⟨fun _ => 0, { gpioOf 1 1 with rdOpen := fun _ => -1 }⟩ (by decide)).1⟩

/-! ## Timers are clock readings -/

theorem nonneg_andThen (f g : State → Run)
    (hf : ∀ s, (∀ j, 0 ≤ s.ticks j) → ∀ j, 0 ≤ (f s).state.ticks j)
    (hg : ∀ s, (∀ j, 0 ≤ s.ticks j) → ∀ j, 0 ≤ (g s).state.ticks j) :
    ∀ s, (∀ j, 0 ≤ s.ticks j) → ∀ j, 0 ≤ ((f s).andThen g).state.ticks j := by
  intro s hs
  cases hc : (f s).exitCode with
  | some c =>
    rw [andThen_some (f s) g (by rw [hc]; simp)]
    exact hf s hs
  | none =>
    rw [andThen_none (f s) g hc]
    exact hg _ (hf s hs)

theorem nonneg_setTick (i : Nat) (v : Int) (hv : 0 ≤ v) (s : State)
    (hs : ∀ j, 0 ≤ s.ticks j) : ∀ j, 0 ≤ (setTick i v s).ticks j := by
  intro j
  by_cases hj : j = i
  · subst hj
    rw [setTick_same]
    exact hv
  · rw [setTick_other j i v s (fun e => hj e.symm)]
    exact hs j

theorem nonneg_press (i : Nat) (pin d : Int) (s : State) (hs : ∀ j, 0 ≤ s.ticks j) :
    ∀ j, 0 ≤ ((handle_button pin d s).andThen
      fun s1 => Run.ret (setTick i 0 s1)).state.ticks j := by
  refine nonneg_andThen (handle_button pin d) _ ?_ ?_ s hs
  · intro t ht
    rw [hb_ticks]
    exact ht
  · intro t ht
    exact nonneg_setTick i 0 (le_refl 0) t ht

theorem nonneg_edge_line (i : Nat) (y : LineIn) (hy : 0 ≤ y.now) (s : State)
    (hs : ∀ j, 0 ≤ s.ticks j) : ∀ j, 0 ≤ (edge_line i y s).state.ticks j := by
  by_cases hp : y.revents &&& POLLPRI = 0
  · rw [edge_line_skip i y s (Or.inl hp)]; exact hs
  by_cases hn : y.nread = 2
  swap
  · rw [edge_line_skip i y s (Or.inr (Or.inl hn))]; exact hs
  by_cases h0 : y.byte0 - CHAR_0 = LOW
  · rw [edge_line_low i y s hp hn h0]; exact nonneg_setTick i y.now hy s hs
  by_cases h1 : y.byte0 - CHAR_0 = HIGH
  swap
  · rw [edge_line_skip i y s (Or.inr (Or.inr (Or.inl ⟨h0, h1⟩)))]; exact hs
  by_cases ht : s.ticks i = 0
  · rw [edge_line_skip i y s (Or.inr (Or.inr (Or.inr ⟨h1, ht⟩)))]; exact hs
  rw [edge_line_high i y s hp hn h1 ht]
  by_cases hd : y.now - s.ticks i ≥ BOUNCE_MSEC
  · rw [if_pos hd]
    exact nonneg_press i _ _ s hs
  · rw [if_neg hd, andThen_ret]
    exact nonneg_setTick i 0 (le_refl 0) s hs

theorem nonneg_timeout_line (now : Int) (i : Nat) (s : State) (hs : ∀ j, 0 ≤ s.ticks j) :
    ∀ j, 0 ≤ (timeout_line now i s).state.ticks j := by
  by_cases hc : s.ticks i > 0 ∧ now - s.ticks i ≥ LONG_PRESS
  · rw [timeout_line_fire now i s hc]
    exact nonneg_press i _ _ s hs
  · rw [timeout_line_idle now i s hc]
    exact hs

theorem nonneg_forLines (body : Nat → State → Run) (ls : List Nat)
    (h : ∀ i s, (∀ j, 0 ≤ s.ticks j) → ∀ j, 0 ≤ (body i s).state.ticks j) :
    ∀ s, (∀ j, 0 ≤ s.ticks j) → ∀ j, 0 ≤ (forLines body ls s).state.ticks j := by
  induction ls with
  | nil => exact fun s hs => hs
  | cons i rest ih => exact nonneg_andThen (body i) (forLines body rest) (h i) ih

theorem nonneg_loop_body (x : Iter) (hx : ∀ j, 0 ≤ (x.line j).now) (s : State)
    (hs : ∀ j, 0 ≤ s.ticks j) : ∀ j, 0 ≤ (loop_body x s).state.ticks j := by
  by_cases hpoll : x.pollRet ≠ 0
  · have he : loop_body x s =
        forLines (fun j => edge_line j (x.line j)) (List.range n_input_pins) s := by
      simp only [loop_body]; rw [if_pos hpoll]
    rw [he]
    exact nonneg_forLines _ _ (fun i t ht => nonneg_edge_line i (x.line i) (hx i) t ht) s hs
  · have he : loop_body x s = forLines (timeout_line x.now) (List.range n_input_pins) s := by
      simp only [loop_body]; rw [if_neg hpoll]
    rw [he]
    exact nonneg_forLines _ _ (fun i t ht => nonneg_timeout_line x.now i t ht) s hs

/-- Starting from the zeroed `ticks` array, or from any state with
non-negative timers, the timers stay non-negative as long as the clock
readings are non-negative. -/
theorem nonneg_main_loop (xs : List Iter) (hx : ∀ x ∈ xs, ∀ j, 0 ≤ (x.line j).now) :
    ∀ s, (∀ j, 0 ≤ s.ticks j) → ∀ j, 0 ≤ (main_loop xs s).state.ticks j := by
  induction xs with
  | nil => exact fun s hs => hs
  | cons x rest ih =>
    exact nonneg_andThen (loop_body x) (main_loop rest)
      (nonneg_loop_body x (hx x (List.mem_cons_self x rest)))
      (ih fun y hy => hx y (List.mem_cons_of_mem x hy))

end AnetGpio
